import Mathlib

/-!
Verification development for the quiz-generation backend
(wiki article → generated multiple-choice quiz → persistence → grading).

The definitions below are a shallow embedding of the Python source:

* `src/backend/app/api.py` — grading endpoint (`_derive_correct_index`,
  `grade_quiz`, `_normalize_payload`) and the `generate_quiz` flow;
* `src/backend/app/services/quiz_generator.py` — `_normalize_result`,
  `generate_quiz_payload`, schema validation (`QuizOutputModel`);
* `src/backend/app/services/fallback_quiz.py` — `generate_rule_based_quiz`;
* `src/backend/app/db/crud.py` — store lookup / create;
* `src/app/api.py` — the legacy endpoint variant (minimum-length check).

Python `str` values are modelled as Lean `String` (ASCII behaviour for
case mapping and whitespace, which is what every relevant code path and
test input uses); machine floats in the score formula are modelled as `ℚ`
with explicit round-half-to-even; fallible code returns `Except`.
-/

namespace QuizApp

/-! ## Python string primitives (ASCII model) -/

/-- Characters Python `str.strip()` / `\s` treat as whitespace (ASCII). -/
def isPySpace (c : Char) : Bool :=
  c = ' ' || c = '\t' || c = '\n' || c = '\r' || c = '\x0b' || c = '\x0c'

/-- Python `str.lower()` on one character (ASCII range). -/
def pyToLower (c : Char) : Char :=
  if 'A' ≤ c ∧ c ≤ 'Z' then Char.ofNat (c.toNat + 32) else c

/-- Python `str.upper()` on one character (ASCII range). -/
def pyToUpper (c : Char) : Char :=
  if 'a' ≤ c ∧ c ≤ 'z' then Char.ofNat (c.toNat - 32) else c

def pyStripChars (l : List Char) : List Char :=
  ((l.dropWhile isPySpace).reverse.dropWhile isPySpace).reverse

/-- Python `s.strip()`. -/
def pyStrip (s : String) : String := ⟨pyStripChars s.data⟩

/-- Python `s.lower()`. -/
def pyLower (s : String) : String := ⟨s.data.map pyToLower⟩

/-- Python `s.upper()`. -/
def pyUpper (s : String) : String := ⟨s.data.map pyToUpper⟩

/-! ## Grader — `src/backend/app/api.py` lines 61–75 and 218–263 -/

/-- One quiz item as produced by a validated `QuizItem` pydantic model
(`model_dump()` of `src/backend/app/schemas.py` `QuizItem`). -/
structure QuizItem where
  question : String
  options : List String
  answer : String
  difficulty : String
  explanation : String
  evidence_span : String
deriving Repr, DecidableEq

/-- `ans.strip().lower()` — the normalisation used for the second,
case/whitespace-insensitive matching pass. -/
def normAns (s : String) : String := pyLower (pyStrip s)

/-- `_derive_correct_index` (api.py lines 61–75): first exact
`opts.index(ans)`, then first case/whitespace-insensitive match,
otherwise `-1`. -/
def deriveCorrectIndex (opts : List String) (ans : String) : Int :=
  match opts.findIdx? (fun o => o = ans) with
  | some i => (i : Int)
  | none =>
    match opts.findIdx? (fun o => normAns o = normAns ans) with
    | some i => (i : Int)
    | none => -1

structure PerQuestionResult where
  index : Nat
  chosen : Int
  correct : Int
  is_correct : Bool
  explanation : String
  evidence_span : String
deriving Repr, DecidableEq

structure GradeResponse where
  total : Nat
  correct : Nat
  score : ℚ
  results : List PerQuestionResult
deriving Repr, DecidableEq

inductive GradeError where
  | answerCountMismatch
deriving Repr, DecidableEq

/-- Round-half-to-even to an integer (the rounding Python `round` uses). -/
def roundHalfEven (q : ℚ) : ℤ :=
  let f := ⌊q⌋
  let r := q - (f : ℚ)
  if r < 1/2 then f
  else if 1/2 < r then f + 1
  else if f % 2 = 0 then f else f + 1

/-- Python `round(x, 2)` modelled on exact rationals. -/
def pyRound2 (q : ℚ) : ℚ := (roundHalfEven (q * 100) : ℚ) / 100

/-- The grading loop of `grade_quiz` (api.py lines 234–252): walks the
zipped (answer, question) list accumulating per-question results and the
count of correct answers. -/
def gradeLoop : Nat → List (Int × QuizItem) → List PerQuestionResult × Nat
  | _, [] => ([], 0)
  | idx, (userIdx, q) :: rest =>
    let correctIdx := deriveCorrectIndex q.options q.answer
    let isCorr : Bool := decide (userIdx = correctIdx ∧ correctIdx ≠ -1)
    let tail := gradeLoop (idx + 1) rest
    ({ index := idx, chosen := userIdx, correct := correctIdx,
       is_correct := isCorr, explanation := q.explanation,
       evidence_span := q.evidence_span } :: tail.1,
     (if isCorr then 1 else 0) + tail.2)

/-- `grade_quiz` (api.py lines 218–263) after the record has been loaded
and its payload validated: answer-count precondition, per-question
grading, and the score formula
`round((correct_total / total) * 100.0, 2) if total else 0.0`. -/
def gradeQuiz (questions : List QuizItem) (answers : List Int) :
    Except GradeError GradeResponse :=
  if answers.length ≠ questions.length then .error .answerCountMismatch
  else
    let graded := gradeLoop 0 (answers.zip questions)
    let total := questions.length
    let score : ℚ :=
      if total ≠ 0 then pyRound2 (((graded.2 : ℚ) / (total : ℚ)) * 100) else 0
    .ok { total := total, correct := graded.2, score := score,
          results := graded.1 }

/-- Specification-side count of correct answers: positions where the
submitted index equals the derived correct index and the latter is
not `-1`. -/
def countCorrect (questions : List QuizItem) (answers : List Int) : Nat :=
  (answers.zip questions).countP fun p =>
    decide (p.1 = deriveCorrectIndex p.2.options p.2.answer ∧
            deriveCorrectIndex p.2.options p.2.answer ≠ -1)

/-! ## JSON values and Python dict operations

Model output objects (`Dict[str, Any]` holding parsed JSON) are modelled
as `JVal`; a Python dict is a `JVal.obj` over an association list with
unique keys (Python dicts cannot hold duplicate keys; operations below
read/update the first occurrence, which coincides on such lists). -/

inductive JVal where
  | str (s : String)
  | num (n : Int)
  | bool (b : Bool)
  | null
  | arr (xs : List JVal)
  | obj (fields : List (String × JVal))

namespace JVal

/-- `d.get(k)` on a dict: `none` when the key is absent. -/
def getField (fields : List (String × JVal)) (k : String) : Option JVal :=
  match fields with
  | [] => none
  | (k', v) :: rest => if k' = k then some v else getField rest k

/-- `d[k] = v`: update in place if the key exists, else append. -/
def setField (fields : List (String × JVal)) (k : String) (v : JVal) :
    List (String × JVal) :=
  match fields with
  | [] => [(k, v)]
  | (k', v') :: rest =>
    if k' = k then (k', v) :: rest else (k', v') :: setField rest k v

/-- `d.setdefault(k, v)`: set only when the key is absent. -/
def setDefault (fields : List (String × JVal)) (k : String) (v : JVal) :
    List (String × JVal) :=
  match getField fields k with
  | some _ => fields
  | none => setField fields k v

/-- Python truthiness of a JSON value. -/
def truthy : JVal → Bool
  | .str s => s ≠ ""
  | .num n => n ≠ 0
  | .bool b => b
  | .null => false
  | .arr xs => ¬xs.isEmpty
  | .obj fs => ¬fs.isEmpty

end JVal

/-- Exceptions the normalisation passes can raise (attribute/type errors
from duck-typed access on non-dict values). -/
inductive PyErr where
  | attributeError (msg : String)
  | typeError (msg : String)
deriving Repr, DecidableEq

/-- `{"people", "organizations", "locations"}.issubset(ke.keys())`. -/
def hasEntityKeys (fields : List (String × JVal)) : Bool :=
  (JVal.getField fields "people").isSome &&
  (JVal.getField fields "organizations").isSome &&
  (JVal.getField fields "locations").isSome

/-- The replacement `{"people": names, "organizations": [], "locations": []}`
built from the keys of a flat `key_entities` dict. -/
def flattenedEntities (names : List String) : JVal :=
  .obj [("people", .arr (names.map JVal.str)),
        ("organizations", .arr []),
        ("locations", .arr [])]

/-- `q["difficulty"] = q["difficulty"].strip().lower()` applied to one quiz
element when it is a dict whose `difficulty` is a string (shared by both
normalisation passes). Non-dict elements raise `AttributeError` in Python
(`q.get` on a non-dict). -/
def normalizeQuizElem (q : JVal) : Except PyErr JVal :=
  match q with
  | .obj qf =>
    match JVal.getField qf "difficulty" with
    | some (.str s) =>
      .ok (.obj (JVal.setField qf "difficulty" (.str (pyLower (pyStrip s)))))
    | _ => .ok (.obj qf)
  | _ => .error (.attributeError "no attribute get")

def normalizeQuizList (qs : List JVal) : Except PyErr (List JVal) :=
  match qs with
  | [] => .ok []
  | q :: rest =>
    match normalizeQuizElem q with
    | .error e => .error e
    | .ok q' =>
      match normalizeQuizList rest with
      | .error e => .error e
      | .ok rest' => .ok (q' :: rest')

/-- The `key_entities` guardrail of `_normalize_result`
(quiz_generator.py lines 127–132): flatten a dict lacking the three
category keys into `people`, default when `None`/absent, leave any other
value alone. -/
def keStepResult (fields : List (String × JVal)) : List (String × JVal) :=
  match JVal.getField fields "key_entities" with
  | some (.obj kef) =>
    if hasEntityKeys kef then fields
    else JVal.setField fields "key_entities"
           (flattenedEntities (kef.map Prod.fst))
  | some .null => JVal.setField fields "key_entities" (flattenedEntities [])
  | none => JVal.setField fields "key_entities" (flattenedEntities [])
  | some _ => fields

/-- The two trailing `setdefault` calls of `_normalize_result`
(quiz_generator.py lines 139–140). -/
def finalizeResultFields (fields2 : List (String × JVal)) : JVal :=
  .obj (JVal.setDefault (JVal.setDefault fields2 "sections" (.arr []))
        "related_topics" (.arr []))

/-- `_normalize_result` (src/backend/app/services/quiz_generator.py lines
120–141): flatten a non-conforming `key_entities` dict, default it when
`None`/absent, lowercase+trim each item's `difficulty` when `quiz` is a
list, and default `sections` / `related_topics`. Non-dict input raises
(`obj.get` on a non-dict). -/
def normalizeResult (v : JVal) : Except PyErr JVal :=
  match v with
  | .obj fields =>
    let fields1 := keStepResult fields
    match JVal.getField fields1 "quiz" with
    | some (.arr qs) =>
      match normalizeQuizList qs with
      | .error e => .error e
      | .ok qs' => .ok (finalizeResultFields (JVal.setField fields1 "quiz" (.arr qs')))
    | _ => .ok (finalizeResultFields fields1)
  | _ => .error (.attributeError "no attribute get")

/-- Iterating `for q in x` over a non-list `x` as Python does it: an empty
string/dict iterates zero times, a non-empty one yields elements without a
`.get` attribute (`AttributeError`), and non-iterables raise `TypeError`.
Returns the (unchanged) value on silent success. -/
def iterateQuizNonList (x : JVal) : Except PyErr JVal :=
  match x with
  | .str s => if s = "" then .ok x else .error (.attributeError "no attribute get")
  | .obj fs => if fs.isEmpty then .ok x else .error (.attributeError "no attribute get")
  | .arr _ => .ok x
  | _ => .error (.typeError "not iterable")

/-- The `key_entities` guardrail of `_normalize_payload` (api.py lines
82–89): `ke = obj.get("key_entities") or {}`, replaced unless it is a
dict containing all three category keys.  The Python `or {}` plus
truthiness unfold as: a present non-empty dict is truthy and is kept as
`ke` (so a non-empty dict with the three keys leaves the object
unchanged, and one lacking them contributes its keys as `names`); every
other value — absent, empty dict, or any non-dict (truthy or falsy,
since a non-dict `ke` fails `isinstance` and yields `names = []`) —
leads to the empty flattened replacement. -/
def keStepPayload (fields : List (String × JVal)) : List (String × JVal) :=
  match JVal.getField fields "key_entities" with
  | some (.obj kef) =>
    if kef.isEmpty then JVal.setField fields "key_entities" (flattenedEntities [])
    else if hasEntityKeys kef then fields
    else JVal.setField fields "key_entities"
           (flattenedEntities (kef.map Prod.fst))
  | some _ => JVal.setField fields "key_entities" (flattenedEntities [])
  | none => JVal.setField fields "key_entities" (flattenedEntities [])

/-- `_normalize_payload` (src/backend/app/api.py lines 78–96): the API-side
guardrail. `ke = obj.get("key_entities") or {}`; replace unless it is a
dict containing all three entity keys; then lowercase+trim `difficulty`
over `obj.get("quiz", [])`. -/
def normalizePayload (v : JVal) : Except PyErr JVal :=
  match v with
  | .obj fields =>
    let fields1 := keStepPayload fields
    match JVal.getField fields1 "quiz" with
    | some (.arr qs) =>
      match normalizeQuizList qs with
      | .error e => .error e
      | .ok qs' => .ok (.obj (JVal.setField fields1 "quiz" (.arr qs')))
    | some other =>
      match iterateQuizNonList other with
      | .error e => .error e
      | .ok _ => .ok (.obj fields1)
    | none => .ok (.obj fields1)
  | _ => .error (.attributeError "no attribute get")

/-- Shape of a `key_entities` value on which `_normalize_result` makes no
change: a dict already carrying the three category keys, or any non-dict,
non-`None` value (which its guardrail leaves alone). -/
def keValFixedResult : Option JVal → Prop
  | some (.obj kef) => hasEntityKeys kef = true
  | some .null => False
  | none => False
  | some _ => True

/-- Shape of a `key_entities` value on which `_normalize_payload` makes no
change: a truthy dict carrying the three category keys. -/
def keValFixedPayload : Option JVal → Prop
  | some (.obj kef) => hasEntityKeys kef = true ∧ kef ≠ []
  | _ => False

/-! ## Schema validation — `QuizOutputModel.model_validate`
(src/backend/app/services/quiz_generator.py lines 16–44) -/

def isStr : JVal → Bool
  | .str _ => true
  | _ => false

def isStrList : JVal → Bool
  | .arr xs => xs.all isStr
  | _ => false

/-- The `difficulty` field validator: `str(v).strip().lower()` must be in
{easy, medium, hard}. `str()` of a non-string value (number, bool, None,
list, dict reprs) can never equal one of the three literals, so only
string inputs can validate. -/
def difficultyValid : JVal → Bool
  | .str s =>
    let d := pyLower (pyStrip s)
    d = "easy" || d = "medium" || d = "hard"
  | _ => false

/-- One `QuizItemModel`: all six fields present, `options` exactly 4
strings, `difficulty` in the enum after coercion. -/
def quizItemValid : JVal → Bool
  | .obj qf =>
    (match JVal.getField qf "question" with | some v => isStr v | none => false) &&
    (match JVal.getField qf "options" with
     | some (.arr xs) => xs.length = 4 && xs.all isStr
     | _ => false) &&
    (match JVal.getField qf "answer" with | some v => isStr v | none => false) &&
    (match JVal.getField qf "difficulty" with
     | some v => difficultyValid v | none => false) &&
    (match JVal.getField qf "explanation" with | some v => isStr v | none => false) &&
    (match JVal.getField qf "evidence_span" with | some v => isStr v | none => false)
  | _ => false

/-- `KeyEntitiesModel`: each of the three fields defaults to `[]` when
absent and must be a list of strings when present. -/
def keyEntitiesValid : JVal → Bool
  | .obj kef =>
    [ "people", "organizations", "locations" ].all fun k =>
      match JVal.getField kef k with
      | some v => isStrList v
      | none => true
  | _ => false

/-- `QuizOutputModel.model_validate` on a parsed JSON value. -/
def quizOutputValid : JVal → Bool
  | .obj fields =>
    (match JVal.getField fields "title" with | some v => isStr v | none => false) &&
    (match JVal.getField fields "summary" with | some v => isStr v | none => false) &&
    (match JVal.getField fields "key_entities" with
     | some v => keyEntitiesValid v | none => false) &&
    (match JVal.getField fields "sections" with
     | some v => isStrList v | none => false) &&
    (match JVal.getField fields "quiz" with
     | some (.arr qs) => qs.all quizItemValid
     | _ => false) &&
    (match JVal.getField fields "related_topics" with
     | some v => isStrList v | none => false) &&
    (match JVal.getField fields "notes" with
     | some (.str _) => true
     | some .null => true
     | some _ => false
     | none => true)
  | _ => false

/-! ## Generation pipeline — `generate_quiz_payload`
(src/backend/app/services/quiz_generator.py lines 209–255)

The `try` block contains only `chain.invoke`; its first `except` clause is
`except ResourceExhausted as e:` and the handler body uses `re.search` —
but neither name `ResourceExhausted` nor `re` is imported in that module,
so as soon as *any* exception escapes `chain.invoke`, evaluating the
exception-clause expression raises `NameError` (the `RateLimitError`
construction is unreachable).  On success, `_normalize_result` and the
final `QuizOutputModel.model_validate` run *outside* the `try`, so a
schema failure propagates as a `ValidationError`; the `_repair_with_error`
helper (lines 165–205) is never called (its call site is commented out). -/

/-- Exceptions the model call (`chain.invoke`) can raise. -/
inductive PyExc where
  | resourceExhausted (msg : String)
  | otherExc (msg : String)
deriving Repr, DecidableEq

/-- Outcome of the single `chain.invoke` model call: a parsed JSON value,
or an exception. -/
inductive ModelOutcome where
  | ok (v : JVal)
  | raises (e : PyExc)

/-- How `generate_quiz_payload` terminates abnormally. -/
inductive GenError where
  | nameError (missing : String)
  | validationError
  | pyError (e : PyErr)
deriving Repr, DecidableEq

/-- A run of the pipeline: its result and how many times the model was
invoked (draft call plus any repair calls). -/
structure PipelineRun where
  result : Except GenError JVal
  modelCalls : Nat

/-- `generate_quiz_payload` of the backend service, as a function of the
model-call outcome. -/
def generateQuizPayload (outcome : ModelOutcome) : PipelineRun :=
  match outcome with
  | .raises _ =>
    -- evaluating `except ResourceExhausted` raises NameError: the name is
    -- unbound in the module, whatever the original exception was
    { result := .error (.nameError "ResourceExhausted"), modelCalls := 1 }
  | .ok v =>
    match normalizeResult v with
    | .error e => { result := .error (.pyError e), modelCalls := 1 }
    | .ok v' =>
      if quizOutputValid v' then { result := .ok v', modelCalls := 1 }
      else { result := .error .validationError, modelCalls := 1 }

/-! ## Store and the `generate_quiz` endpoint flows
(src/backend/app/db/crud.py, src/backend/app/api.py lines 133–192,
src/app/api.py lines 33–89)

The SHA-256 fingerprinter (`sha256_hex`) is kept abstract as a parameter
`H : String → String`; all claims are stated in terms of fingerprint
equality, never of concrete digests. -/

structure QuizRecord where
  id : Nat
  url : String
  url_hash : String
  content_hash : String
  title : String
  scraped_content : String
  full_quiz_data : JVal

abbrev Store := List QuizRecord

/-- `scalar_one_or_none` over
`select(Quiz).where(url_hash == uh, content_hash == ch)`: `none` on no
row, the row when unique, and `MultipleResultsFound` on several rows
(crud.py lines 11–13; the table has no unique index on the pair). -/
def lookupQuiz (db : Store) (uh ch : String) :
    Except Unit (Option QuizRecord) :=
  match db.filter (fun r => r.url_hash = uh && r.content_hash = ch) with
  | [] => .ok none
  | [r] => .ok (some r)
  | _ :: _ :: _ => .error ()

/-- Auto-increment primary key: one more than the largest assigned id. -/
def nextId (db : Store) : Nat := (db.map QuizRecord.id).foldr max 0 + 1

/-- `crud.create_quiz`: build the row (computing `url_hash` from the url),
insert, and return it. -/
def createQuiz (H : String → String) (db : Store)
    (url title text contentHash : String) (payload : JVal) :
    QuizRecord × Store :=
  let r : QuizRecord :=
    { id := nextId db, url := url, url_hash := H url,
      content_hash := contentHash, title := title,
      scraped_content := text, full_quiz_data := payload }
  (r, db ++ [r])

inductive HttpError where
  | badGateway (detail : String)
  | internalError
deriving Repr, DecidableEq

/-- Outcome of one `generate_quiz` request: the HTTP-level result (record
id and payload on success), the store afterwards, and whether the
generation pipeline was invoked. -/
structure GenFlowResult where
  response : Except HttpError (Nat × JVal)
  db : Store
  generationInvoked : Bool

/-- The non-cached tail of both endpoints: run generation (abstracted as
`gen`, covering the whole guarded block — model call, normalisation and
payload validation; any exception there becomes a 502) and persist. -/
def generateFresh (H : String → String) (db : Store)
    (url title text contentHash : String) (gen : Except Unit JVal) :
    GenFlowResult :=
  match gen with
  | .error _ =>
    { response := .error (.badGateway "Quiz generation failed"), db := db,
      generationInvoked := true }
  | .ok payload =>
    let rs := createQuiz H db url title text contentHash payload
    { response := .ok (rs.1.id, payload), db := rs.2,
      generationInvoked := true }

/-- `generate_quiz` of src/backend/app/api.py (lines 133–192), starting
after a successful fetch: fingerprint, dedup lookup unless `force`, else
generate and persist.  No minimum-length check is performed on `text`. -/
def backendGenerateQuiz (H : String → String) (db : Store) (force : Bool)
    (url title text : String) (gen : Except Unit JVal) : GenFlowResult :=
  let contentHash := H text
  let urlHash := H url
  if force then generateFresh H db url title text contentHash gen
  else
    match lookupQuiz db urlHash contentHash with
    | .error _ =>
      -- MultipleResultsFound escapes the endpoint: HTTP 500
      { response := .error .internalError, db := db,
        generationInvoked := false }
    | .ok (some r) =>
      { response := .ok (r.id, r.full_quiz_data), db := db,
        generationInvoked := false }
    | .ok none => generateFresh H db url title text contentHash gen

/-- `generate_quiz` of the legacy variant src/app/api.py (lines 33–89):
identical flow but with the extraction-failure guard
`if not text or len(text) < 200: raise HTTPException(502, ...)` before
fingerprinting. -/
def appGenerateQuiz (H : String → String) (db : Store) (force : Bool)
    (url title text : String) (gen : Except Unit JVal) : GenFlowResult :=
  if text = "" || text.length < 200 then
    { response := .error (.badGateway "Article text too short or failed to extract"),
      db := db, generationInvoked := false }
  else backendGenerateQuiz H db force url title text gen

/-! ## Fallback generator — `src/backend/app/services/fallback_quiz.py`

`random.Random(42)` is abstracted as a shuffle oracle indexed by the
number of `rng.shuffle` calls made so far; every fact proved about the
generator holds for *any* oracle whose calls permute their input, hence
in particular for the seeded Mersenne–Twister the source uses. -/

def isWordChar (c : Char) : Bool := c.isAlpha || c.isDigit || c = '_'

def isUpperAZ (c : Char) : Bool := 'A' ≤ c && c ≤ 'Z'

/-- The `(?=[A-Z0-9])` lookahead class of the sentence splitter. -/
def isSentStart (c : Char) : Bool := isUpperAZ c || c.isDigit

/-- The `(?<=[.!?])` lookbehind class of the sentence splitter. -/
def isPunctEnd (c : Char) : Bool := c = '.' || c = '!' || c = '?'

/-- Character-level implementation of
`re.split(r"(?<=[.!?])\s+(?=[A-Z0-9])", text)`: split at each maximal
whitespace run whose preceding character is `.`/`!`/`?` and which is
followed by `[A-Z0-9]`.  `cur` is the current part reversed; `pend` is a
reversed buffer of whitespace seen immediately after a `.!?` (a potential
separator awaiting its lookahead character). -/
def splitAux : List Char → List Char → List Char → List (List Char)
  | [], cur, pend => [(pend ++ cur).reverse]
  | c :: rest, cur, pend =>
    if pend.isEmpty then
      if isPySpace c && (match cur.head? with
                         | some p => isPunctEnd p
                         | none => false) then
        splitAux rest cur [c]
      else splitAux rest (c :: cur) []
    else
      if isPySpace c then splitAux rest cur (c :: pend)
      else if isSentStart c then cur.reverse :: splitAux rest [c] []
      else splitAux rest (c :: (pend ++ cur)) []

/-- `_split_sentences` (fallback_quiz.py lines 36–38): regex split, keep
stripped parts longer than 40 characters. -/
def splitSentences (text : String) : List String :=
  (splitAux text.data [] []).filterMap fun p =>
    let q := pyStripChars p
    if 40 < q.length then some ⟨q⟩ else none

/-- Scanner state for `ENTITY_PATTERN.findall`
(`\b([A-Z][\w]*(?:\s+[A-Z][\w]*)*)\b`): outside a match (tracking whether
the previous character was a word character, for `\b`), inside a
capitalized word chain, or inside whitespace following a chain word
(which extends the chain only if a capital follows).  Chains and buffers
are reversed. -/
inductive EntScanState where
  | outside (prevWord : Bool)
  | inChain (chain : List Char)
  | chainWs (chain : List Char) (buf : List Char)

/-- Leftmost, non-overlapping matches of `ENTITY_PATTERN` (the full
capture, internal whitespace included, as `findall` returns them). -/
def entityScan : List Char → EntScanState → List (List Char)
  | [], st =>
    match st with
    | .outside _ => []
    | .inChain ch => [ch.reverse]
    | .chainWs ch _ => [ch.reverse]
  | c :: rest, st =>
    match st with
    | .outside prevWord =>
      if isUpperAZ c && !prevWord then entityScan rest (.inChain [c])
      else entityScan rest (.outside (isWordChar c))
    | .inChain ch =>
      if isWordChar c then entityScan rest (.inChain (c :: ch))
      else if isPySpace c then entityScan rest (.chainWs ch [c])
      else ch.reverse :: entityScan rest (.outside (isWordChar c))
    | .chainWs ch buf =>
      if isPySpace c then entityScan rest (.chainWs ch (c :: buf))
      else if isUpperAZ c then entityScan rest (.inChain (c :: (buf ++ ch)))
      else ch.reverse :: entityScan rest (.outside (isWordChar c))

def TITLE_STOPWORDS : List String :=
  ["The", "A", "An", "In", "On", "And", "But", "For", "With", "As", "By",
   "Of", "To"]

/-- Python `str.split()` (split on whitespace runs, dropping empties). -/
def splitWsTokens : List Char → List Char → List String
  | [], cur => if cur.isEmpty then [] else [⟨cur.reverse⟩]
  | c :: rest, cur =>
    if isPySpace c then
      if cur.isEmpty then splitWsTokens rest []
      else (⟨cur.reverse⟩ : String) :: splitWsTokens rest []
    else splitWsTokens rest (c :: cur)

/-- `_extract_entities` (fallback_quiz.py lines 41–54): pattern matches,
minus stopword-led phrases, all-uppercase tokens and short items. -/
def extractEntities (sentence : String) : List String :=
  (entityScan sentence.data (.outside false)).filterMap fun m =>
    let item : String := ⟨pyStripChars m⟩
    let head := (splitWsTokens item.data []).headD ""
    if TITLE_STOPWORDS.contains head then none
    else if pyUpper item = item then none
    else if item.length < 3 then none
    else some item

/-- Inner loop of `_collect_entities`: fold one sentence's entities into
(seen lowercased keys, accumulated items), reporting whether the limit
was reached (Python returns from inside the nested loop). -/
def collectFromSentence (limit : Nat) :
    List String → List String → List String → List String × List String × Bool
  | [], seen, acc => (seen, acc, false)
  | ent :: rest, seen, acc =>
    let norm := pyLower ent
    if seen.contains norm then collectFromSentence limit rest seen acc
    else
      let acc' := acc ++ [ent]
      if limit ≤ acc'.length then (norm :: seen, acc', true)
      else collectFromSentence limit rest (norm :: seen) acc'

/-- `_collect_entities` (fallback_quiz.py lines 57–69). -/
def collectEntitiesAux (limit : Nat) :
    List String → List String → List String → List String
  | [], _, acc => acc
  | s :: rest, seen, acc =>
    let r := collectFromSentence limit (extractEntities s) seen acc
    if r.2.2 then r.2.1 else collectEntitiesAux limit rest r.1 r.2.1

def collectEntities (sentences : List String) (limit : Nat) : List String :=
  collectEntitiesAux limit sentences [] []

/-- Shuffle oracle standing for `random.Random(42)`: argument is the
index of the `rng.shuffle` call within the request. -/
def ShuffleOracle : Type := Nat → List String → List String

/-- The identity oracle (a legitimate permutation at every call). -/
def idShuffle : ShuffleOracle := fun _ l => l

/-- Python `s.replace(pat, rep, 1)`. -/
def replaceFirstAux (pat rep : List Char) : List Char → List Char
  | [] => if pat.isEmpty then rep else []
  | c :: rest =>
    if pat.isPrefixOf (c :: rest) then rep ++ (c :: rest).drop pat.length
    else c :: replaceFirstAux pat rep rest

def pyReplaceFirst (s pat rep : String) : String :=
  ⟨replaceFirstAux pat.data rep.data s.data⟩

/-- Python `pat in s` (substring containment). -/
def containsSubAux (pat : List Char) : List Char → Bool
  | [] => pat.isEmpty
  | c :: rest => pat.isPrefixOf (c :: rest) || containsSubAux pat rest

def pyContains (pat s : String) : Bool := containsSubAux pat.data s.data

def GENERIC_DISTRACTORS : List String :=
  ["A different historical event",
   "An unrelated scientific topic",
   "A fictional character",
   "A random geographic location",
   "A general cultural reference",
   "None of the above"]

/-- `_build_question` (fallback_quiz.py lines 72–101): blank the answer in
the sentence, take up to three distractors, pad to four options with
`"None of the above"`, shuffle.  `k` is the next shuffle-call index;
returns the item and the updated index. -/
def buildQuestion (sh : ShuffleOracle) (k : Nat) (sentence answer : String)
    (distractors : List String) : QuizItem × Nat :=
  let blanked := pyReplaceFirst sentence answer "____"
  let options0 := answer :: distractors.take 3
  let options1 := options0 ++ List.replicate (4 - options0.length) "None of the above"
  let options := sh k options1
  ({ question := "In the context of this article, which option best completes the statement:\n\"" ++
       pyStrip blanked ++ "\"",
     options := options,
     answer := answer,
     difficulty := "medium",
     explanation := "The original sentence states \"" ++ pyStrip sentence ++
       "\" which identifies " ++ answer ++ ".",
     evidence_span := pyStrip sentence }, k + 1)

/-- `_generic_question` (fallback_quiz.py lines 104–118): generic
"what is this article about" question; shuffles the distractor pool and
then the options (two shuffle calls). -/
def genericQuestion (sh : ShuffleOracle) (k : Nat) (title : String) :
    QuizItem × Nat :=
  let answer := title
  let pool := GENERIC_DISTRACTORS.filter (fun o => o ≠ answer)
  let pool1 := sh k pool
  let options0 := answer :: pool1.take 3
  let options := sh (k + 1) options0
  ({ question := "What subject does the article \"" ++ title ++ "\" primarily discuss?",
     options := options,
     answer := answer,
     difficulty := "easy",
     explanation := "The article overview centers on " ++ title ++ ".",
     evidence_span := "The article focuses on " ++ title ++ "." }, k + 2)

/-- `_normalize_sections` (fallback_quiz.py lines 121–125). -/
def normalizeSections (sections : List String) : List String :=
  ((sections.filter fun s => pyStrip s ≠ "").map pyStrip).take 20

structure KeyEntityGroups where
  people : List String
  organizations : List String
  locations : List String
deriving Repr, DecidableEq

/-- The `key_entities` bucketing of `generate_rule_based_quiz`
(fallback_quiz.py lines 153–161). -/
def groupEntitiesAux : List String → KeyEntityGroups → KeyEntityGroups
  | [], g => g
  | ent :: rest, g =>
    let lower := pyLower ent
    if pyContains "university" lower || pyContains "company" lower ||
       pyContains "association" lower then
      groupEntitiesAux rest { g with organizations := g.organizations ++ [ent] }
    else if pyContains "city" lower || pyContains "state" lower ||
            pyContains "country" lower || pyContains "river" lower then
      groupEntitiesAux rest { g with locations := g.locations ++ [ent] }
    else
      groupEntitiesAux rest { g with people := g.people ++ [ent] }

/-- First question loop of `generate_rule_based_quiz` (lines 166–176):
one question per sentence that yields a candidate entity, stopping once
`max_questions` items exist. -/
def fbLoop1 (sh : ShuffleOracle) (entities : List String) (maxQ : Nat) :
    List String → List QuizItem → Nat → List QuizItem × Nat
  | [], items, k => (items, k)
  | sentence :: rest, items, k =>
    if maxQ ≤ items.length then (items, k)
    else
      match extractEntities sentence with
      | [] => fbLoop1 sh entities maxQ rest items k
      | answer :: _ =>
        let distractors := entities.filter fun e => e ≠ answer
        let shuffled := sh k distractors
        let bq := buildQuestion sh (k + 1) sentence answer shuffled
        fbLoop1 sh entities maxQ rest (items ++ [bq.1]) bq.2

/-- Second loop (lines 178–184): top up from unused entities against the
first summary sentence. -/
def fbLoop2 (sh : ShuffleOracle) (entities : List String) (sentence : String) :
    List String → List QuizItem → Nat → List QuizItem × Nat
  | [], items, k => (items, k)
  | ent :: rest, items, k =>
    let distractors := entities.filter fun e => e ≠ ent
    let shuffled := sh k distractors
    let bq := buildQuestion sh (k + 1) sentence ent shuffled
    fbLoop2 sh entities sentence rest (items ++ [bq.1]) bq.2

/-- The `while len(quiz_items) < min_questions` padding loop (lines
186–187), reformulated structurally on the number of missing items (each
iteration appends exactly one generic question). -/
def fbPad (sh : ShuffleOracle) (title : String) :
    Nat → List QuizItem → Nat → List QuizItem × Nat
  | 0, items, k => (items, k)
  | n + 1, items, k =>
    let gq := genericQuestion sh k title
    fbPad sh title n (items ++ [gq.1]) gq.2

/-- Tail of `generate_rule_based_quiz` (lines 186–192): pad with generic
questions up to `min_questions`, truncate at `max_questions`, and ensure
at least one question remains. -/
def fbFinish (sh : ShuffleOracle) (cleanTitle : String) (minQ maxQ : Nat)
    (l2 : List QuizItem × Nat) : List QuizItem :=
  let l3 := fbPad sh cleanTitle (minQ - l2.1.length) l2.1 l2.2
  let items0 := l3.1.take maxQ
  if items0.isEmpty then [(genericQuestion sh l3.2 cleanTitle).1] else items0

/-- The quiz-item assembly of `generate_rule_based_quiz` (lines
163–192): the sentence loop, the unused-entity top-up loop, and the
padding/truncation tail. -/
def fbMainItems (sh : ShuffleOracle) (cleanTitle : String)
    (sentences entities : List String) (minQ maxQ : Nat) : List QuizItem :=
  let summarySentences := sentences.take 3
  let keyEntities := entities.take 5
  let unusedEntities := entities.filter fun e => ¬ keyEntities.contains e
  let l1 := fbLoop1 sh entities maxQ sentences [] 0
  let l2 :=
    if l1.1.length < minQ ∧ ¬ unusedEntities.isEmpty then
      let remaining := min (minQ - l1.1.length) unusedEntities.length
      let sentence :=
        match summarySentences with
        | s :: _ => s
        | [] => cleanTitle
      fbLoop2 sh entities sentence (unusedEntities.take remaining) l1.1 l1.2
    else l1
  fbFinish sh cleanTitle minQ maxQ l2

structure FallbackPayload where
  title : String
  summary : String
  key_entities : KeyEntityGroups
  sections : List String
  quiz : List QuizItem
  related_topics : List String
  notes : String
deriving Repr, DecidableEq

/-- `generate_rule_based_quiz` (fallback_quiz.py lines 128–205). -/
def generateRuleBasedQuiz (sh : ShuffleOracle) (title : String)
    (sections : List String) (articleText : String)
    (minQ maxQ : Nat) : FallbackPayload :=
  let cleanTitle := if title ≠ "" then pyStrip title else "Untitled Article"
  let cleanSections := normalizeSections sections
  let baseText := pyStrip articleText
  let sentences0 := splitSentences baseText
  let sentences :=
    if sentences0.isEmpty then
      if baseText ≠ "" then [baseText]
      else [cleanTitle ++ " is the focus of this article."]
    else sentences0
  let entities := collectEntities sentences 80
  let summarySentences := sentences.take 3
  let summary :=
    if summarySentences.isEmpty then "Overview of " ++ cleanTitle
    else String.intercalate " " summarySentences
  let keyEntities := entities.take 5
  let groups := groupEntitiesAux keyEntities ⟨[], [], []⟩
  let quizItems := fbMainItems sh cleanTitle sentences entities minQ maxQ
  { title := cleanTitle,
    summary := if summary ≠ "" then summary else "Overview of " ++ cleanTitle,
    key_entities := groups,
    sections := cleanSections.take 10,
    quiz := quizItems,
    related_topics := cleanSections.take 6,
    notes := "Generated using rule-based fallback due to primary model being unavailable." }

/-- Concrete record used by the grading witnesses: one exact-match item,
one case/whitespace-insensitive item, one malformed item. -/
def sampleQuestions : List QuizItem :=
  [{ question := "capital?", options := ["Paris", "London", "Rome", "Berlin"],
     answer := "Paris", difficulty := "easy", explanation := "ex1",
     evidence_span := "ev1" },
   { question := "year?", options := ["1989", "1991", "1993", "1995"],
     answer := " 1991 ", difficulty := "medium", explanation := "ex2",
     evidence_span := "ev2" },
   { question := "broken", options := ["x", "y", "z", "w"],
     answer := "missing", difficulty := "hard", explanation := "ex3",
     evidence_span := "ev3" }]

/-- A raw model payload exercising both guardrails: a flat
`key_entities` dict and an un-normalised `difficulty`. -/
def sampleRawPayload : JVal :=
  .obj [("key_entities", .obj [("Alice", .str "a scientist")]),
        ("quiz", .arr [.obj [("difficulty", .str " EASY ")]])]

/-- `_normalize_result` output for `sampleRawPayload`. -/
def sampleNormalizedResult : JVal :=
  .obj [("key_entities", .obj [("people", .arr [.str "Alice"]),
                               ("organizations", .arr []),
                               ("locations", .arr [])]),
        ("quiz", .arr [.obj [("difficulty", .str "easy")]]),
        ("sections", .arr []),
        ("related_topics", .arr [])]

/-- `_normalize_payload` output for `sampleRawPayload`. -/
def sampleNormalizedPayload : JVal :=
  .obj [("key_entities", .obj [("people", .arr [.str "Alice"]),
                               ("organizations", .arr []),
                               ("locations", .arr [])]),
        ("quiz", .arr [.obj [("difficulty", .str "easy")]])]

/-- A model draft that fails schema validation even after normalization
(no `summary`, no `quiz`). -/
def sampleInvalidDraft : JVal := .obj [("title", .str "T")]

/-- The per-item shape the spec asserts of fallback output: exactly four
options and a difficulty among the three literals. -/
def validItem (it : QuizItem) : Prop :=
  it.options.length = 4 ∧
  (it.difficulty = "easy" ∨ it.difficulty = "medium" ∨ it.difficulty = "hard")

/-- The single-entity article used to probe the fallback generator. -/
def einsteinText : String :=
  "Einstein discovered that energy equals mass times the speed of light squared, and this discovery was truly remarkable for everyone involved in physics at that time in history across many nations of the whole wide world."

/-- A stored record whose fingerprints match the sample request below. -/
def dupRecordA : QuizRecord :=
  { id := 1, url := "https://en.wikipedia.org/wiki/X",
    url_hash := "https://en.wikipedia.org/wiki/X", content_hash := "body",
    title := "X", scraped_content := "body", full_quiz_data := .null }

/-- A second record with the same fingerprint pair (as two `force=true`
generations of the same unchanged article would create) and a fresh id. -/
def dupRecordB : QuizRecord :=
  { id := 2, url := "https://en.wikipedia.org/wiki/X",
    url_hash := "https://en.wikipedia.org/wiki/X", content_hash := "body",
    title := "X", scraped_content := "body", full_quiz_data := .null }

/-- An article body of exactly 199 characters (no whitespace, hence fixed
by whitespace normalization). -/
def text199 : String := ⟨List.replicate 199 'a'⟩

/-! ## Helper lemmas about the Python string primitives -/

lemma toNat_charOfNat {n : Nat} (h : n < 55296) : (Char.ofNat n).toNat = n := by
  unfold Char.ofNat
  rw [dif_pos (Or.inl h)]
  unfold Char.ofNatAux
  simp [Char.toNat, UInt32.toNat]

lemma char_le_iff_toNat {a b : Char} : a ≤ b ↔ a.toNat ≤ b.toNat := by
  simp [Char.le_def, UInt32.le_def, BitVec.le_def, Char.toNat, UInt32.toNat]

lemma char_eq_iff_toNat {a b : Char} : a = b ↔ a.toNat = b.toNat :=
  ⟨fun h => by rw [h], fun h => Char.ext (UInt32.ext h)⟩

lemma upper_toNat_bounds {c : Char} (h : 'A' ≤ c ∧ c ≤ 'Z') :
    65 ≤ c.toNat ∧ c.toNat ≤ 90 := by
  have h1 := char_le_iff_toNat.mp h.1
  have h2 := char_le_iff_toNat.mp h.2
  have hA : ('A' : Char).toNat = 65 := by decide
  have hZ : ('Z' : Char).toNat = 90 := by decide
  omega

lemma pyToLower_toNat_of_upper {c : Char} (h : 'A' ≤ c ∧ c ≤ 'Z') :
    (pyToLower c).toNat = c.toNat + 32 := by
  have hb := upper_toNat_bounds h
  unfold pyToLower
  rw [if_pos h]
  exact toNat_charOfNat (by omega)

lemma pyToLower_eq_self {c : Char} (h : ¬('A' ≤ c ∧ c ≤ 'Z')) :
    pyToLower c = c := by
  unfold pyToLower
  rw [if_neg h]

lemma not_upper_of_upper_lowered {c : Char} (h : 'A' ≤ c ∧ c ≤ 'Z') :
    ¬('A' ≤ pyToLower c ∧ pyToLower c ≤ 'Z') := by
  have hb := upper_toNat_bounds h
  have ht := pyToLower_toNat_of_upper h
  intro h2
  have hb2 := upper_toNat_bounds h2
  omega

lemma pyToLower_pyToLower (c : Char) : pyToLower (pyToLower c) = pyToLower c := by
  by_cases h : 'A' ≤ c ∧ c ≤ 'Z'
  · exact pyToLower_eq_self (not_upper_of_upper_lowered h)
  · rw [pyToLower_eq_self h, pyToLower_eq_self h]

lemma isPySpace_toNat (c : Char) :
    isPySpace c = decide (c.toNat = 32 ∨ c.toNat = 9 ∨ c.toNat = 10 ∨
      c.toNat = 13 ∨ c.toNat = 11 ∨ c.toNat = 12) := by
  have h32 : (' ' : Char).toNat = 32 := by decide
  have h9 : ('\t' : Char).toNat = 9 := by decide
  have h10 : ('\n' : Char).toNat = 10 := by decide
  have h13 : ('\r' : Char).toNat = 13 := by decide
  have h11 : ('\x0b' : Char).toNat = 11 := by decide
  have h12 : ('\x0c' : Char).toNat = 12 := by decide
  unfold isPySpace
  simp only [char_eq_iff_toNat, h32, h9, h10, h13, h11, h12, Bool.decide_or,
    Bool.or_assoc]

lemma isPySpace_pyToLower (c : Char) : isPySpace (pyToLower c) = isPySpace c := by
  by_cases h : 'A' ≤ c ∧ c ≤ 'Z'
  · have hb := upper_toNat_bounds h
    have ht := pyToLower_toNat_of_upper h
    rw [isPySpace_toNat, isPySpace_toNat, ht]
    have e1 : ¬(c.toNat + 32 = 32 ∨ c.toNat + 32 = 9 ∨ c.toNat + 32 = 10 ∨
        c.toNat + 32 = 13 ∨ c.toNat + 32 = 11 ∨ c.toNat + 32 = 12) := by omega
    have e2 : ¬(c.toNat = 32 ∨ c.toNat = 9 ∨ c.toNat = 10 ∨
        c.toNat = 13 ∨ c.toNat = 11 ∨ c.toNat = 12) := by omega
    exact decide_eq_decide.mpr (by tauto)
  · rw [pyToLower_eq_self h]

lemma dropWhile_map_pyToLower (l : List Char) :
    (l.map pyToLower).dropWhile isPySpace =
      (l.dropWhile isPySpace).map pyToLower := by
  induction l with
  | nil => simp
  | cons c rest ih =>
    by_cases h : isPySpace c
    · simp [List.dropWhile_cons, isPySpace_pyToLower, h, ih]
    · simp [List.dropWhile_cons, isPySpace_pyToLower, h]

lemma dropWhile_dropWhile (p : Char → Bool) (l : List Char) :
    (l.dropWhile p).dropWhile p = l.dropWhile p := by
  induction l with
  | nil => simp
  | cons c rest ih =>
    by_cases h : p c
    · simp [List.dropWhile_cons, h, ih]
    · simp [List.dropWhile_cons, h]

lemma dropWhile_eq_self_of_head {p : Char → Bool} {l : List Char}
    (h : ∀ c, l.head? = some c → p c = false) : l.dropWhile p = l := by
  cases l with
  | nil => rfl
  | cons a rest => simp [List.dropWhile_cons, h a rfl]

lemma front_clean_head {p : Char → Bool} {X : List Char}
    (h : X.dropWhile p = X) : ∀ c, X.head? = some c → p c = false := by
  intro c hc
  cases X with
  | nil => cases hc
  | cons a rest =>
    cases hc
    rw [List.dropWhile_cons] at h
    by_cases hp : p c
    · rw [if_pos hp] at h
      have hlen := congrArg List.length h
      have hle := (List.dropWhile_suffix (l := rest) p).length_le
      simp at hlen
      omega
    · simpa using hp

lemma trimBack_front_clean {p : Char → Bool} {X : List Char}
    (h : X.dropWhile p = X) :
    ((X.reverse.dropWhile p).reverse).dropWhile p =
      (X.reverse.dropWhile p).reverse := by
  apply dropWhile_eq_self_of_head
  intro c hc
  have hsuf : X.reverse.dropWhile p <:+ X.reverse := List.dropWhile_suffix p
  have hpre : (X.reverse.dropWhile p).reverse <+: X := by
    have h2 := List.reverse_prefix.mpr hsuf
    rwa [List.reverse_reverse] at h2
  rcases hpre with ⟨t, ht⟩
  have hX : X.head? = some c := by
    rw [← ht]
    cases hEq : (X.reverse.dropWhile p).reverse with
    | nil => rw [hEq] at hc; cases hc
    | cons a l2 =>
      rw [hEq] at hc
      cases hc
      simp
  exact front_clean_head h c hX

lemma pyStripChars_idem (l : List Char) :
    pyStripChars (pyStripChars l) = pyStripChars l := by
  have hA : (l.dropWhile isPySpace).dropWhile isPySpace = l.dropWhile isPySpace :=
    dropWhile_dropWhile isPySpace l
  have h1 : (pyStripChars l).dropWhile isPySpace = pyStripChars l :=
    trimBack_front_clean hA
  have hrev : (pyStripChars l).reverse =
      (l.dropWhile isPySpace).reverse.dropWhile isPySpace := by
    unfold pyStripChars
    rw [List.reverse_reverse]
  have h2 : (pyStripChars l).reverse.dropWhile isPySpace =
      (pyStripChars l).reverse := by
    rw [hrev, dropWhile_dropWhile]
  show (((pyStripChars l).dropWhile isPySpace).reverse.dropWhile isPySpace).reverse =
    pyStripChars l
  rw [h1, h2, List.reverse_reverse]

lemma pyStripChars_map_lower (l : List Char) :
    pyStripChars (l.map pyToLower) = (pyStripChars l).map pyToLower := by
  unfold pyStripChars
  rw [dropWhile_map_pyToLower, ← List.map_reverse, dropWhile_map_pyToLower,
    List.map_reverse]

lemma map_pyToLower_map_pyToLower (l : List Char) :
    (l.map pyToLower).map pyToLower = l.map pyToLower := by
  rw [List.map_map]
  apply List.map_congr_left
  intro c _
  exact pyToLower_pyToLower c

/-- `s.strip().lower()` is idempotent: re-applying it to its own output
changes nothing. -/
lemma stripLower_idem (s : String) :
    pyLower (pyStrip (pyLower (pyStrip s))) = pyLower (pyStrip s) := by
  show (⟨(pyStripChars ((pyStripChars s.data).map pyToLower)).map pyToLower⟩ : String) =
    ⟨(pyStripChars s.data).map pyToLower⟩
  rw [pyStripChars_map_lower, pyStripChars_idem, map_pyToLower_map_pyToLower]

/-! ## Helper lemmas about dict operations -/

namespace JVal

lemma getField_setField_self (fs : List (String × JVal)) (k : String)
    (v : JVal) : getField (setField fs k v) k = some v := by
  induction fs with
  | nil => simp [setField, getField]
  | cons p rest ih =>
    obtain ⟨k1, v1⟩ := p
    by_cases h : k1 = k
    · simp [setField, getField, h]
    · simp [setField, getField, h, ih]

lemma getField_setField_ne (fs : List (String × JVal)) {k k' : String}
    (v : JVal) (h : k ≠ k') :
    getField (setField fs k v) k' = getField fs k' := by
  induction fs with
  | nil => simp [setField, getField, h]
  | cons p rest ih =>
    obtain ⟨k1, v1⟩ := p
    by_cases h1 : k1 = k
    · subst h1
      simp [setField, getField, h]
    · simp [setField, getField, h1, ih]

lemma setField_setField_self (fs : List (String × JVal)) (k : String)
    (v w : JVal) : setField (setField fs k v) k w = setField fs k w := by
  induction fs with
  | nil => simp [setField]
  | cons p rest ih =>
    obtain ⟨k1, v1⟩ := p
    by_cases h : k1 = k
    · simp [setField, h]
    · simp [setField, h, ih]

lemma setField_eq_of_getField {fs : List (String × JVal)} {k : String}
    {v : JVal} (h : getField fs k = some v) : setField fs k v = fs := by
  induction fs with
  | nil => simp [getField] at h
  | cons p rest ih =>
    obtain ⟨k1, v1⟩ := p
    by_cases h1 : k1 = k
    · subst h1
      simp [getField] at h
      simp [setField, h]
    · simp [getField, h1] at h
      simp [setField, h1, ih h]

lemma getField_setDefault_ne (fs : List (String × JVal)) {k k' : String}
    (v : JVal) (h : k ≠ k') :
    getField (setDefault fs k v) k' = getField fs k' := by
  unfold setDefault
  rcases hf : getField fs k with - | u
  · simp only [hf]
    exact getField_setField_ne fs v h
  · simp only [hf]

lemma isSome_getField_setDefault (fs : List (String × JVal)) (k : String)
    (v : JVal) : (getField (setDefault fs k v) k).isSome := by
  unfold setDefault
  rcases hf : getField fs k with - | u
  · simp only [hf]
    simp [getField_setField_self]
  · simp only [hf]
    simp [hf]

lemma setDefault_of_isSome {fs : List (String × JVal)} {k : String}
    (v : JVal) (h : (getField fs k).isSome) : setDefault fs k v = fs := by
  unfold setDefault
  rcases hf : getField fs k with - | u
  · rw [hf] at h
    simp at h
  · simp only [hf]

end JVal

/-! ## Helper lemmas about the normalisation guardrails -/

lemma hasEntityKeys_flattened (names : List String) :
    hasEntityKeys [("people", JVal.arr (names.map JVal.str)),
                   ("organizations", JVal.arr []),
                   ("locations", JVal.arr [])] = true := rfl

lemma keStepResult_fixed (fs : List (String × JVal)) :
    keValFixedResult (JVal.getField (keStepResult fs) "key_entities") := by
  unfold keStepResult
  rcases h : JVal.getField fs "key_entities" with - | v
  · simp only [h]
    rw [JVal.getField_setField_self]
    exact hasEntityKeys_flattened []
  · cases v with
    | obj kef =>
      simp only [h]
      by_cases hk : hasEntityKeys kef
      · rw [if_pos hk, h]
        exact hk
      · rw [if_neg hk, JVal.getField_setField_self]
        exact hasEntityKeys_flattened (kef.map Prod.fst)
    | null =>
      simp only [h]
      rw [JVal.getField_setField_self]
      exact hasEntityKeys_flattened []
    | str s => simp only [h]; trivial
    | num n => simp only [h]; trivial
    | bool b => simp only [h]; trivial
    | arr xs => simp only [h]; trivial

lemma keStepResult_eq_of_fixed {fs : List (String × JVal)}
    (h : keValFixedResult (JVal.getField fs "key_entities")) :
    keStepResult fs = fs := by
  unfold keStepResult
  rcases hg : JVal.getField fs "key_entities" with - | v
  · rw [hg] at h
    exact absurd h (by simp [keValFixedResult])
  · cases v with
    | obj kef =>
      rw [hg] at h
      simp only [hg]
      have hk : hasEntityKeys kef = true := h
      rw [if_pos hk]
    | null =>
      rw [hg] at h
      exact absurd h (by simp [keValFixedResult])
    | str s => simp only [hg]
    | num n => simp only [hg]
    | bool b => simp only [hg]
    | arr xs => simp only [hg]

lemma keStepPayload_fixed (fs : List (String × JVal)) :
    keValFixedPayload (JVal.getField (keStepPayload fs) "key_entities") := by
  unfold keStepPayload
  rcases h : JVal.getField fs "key_entities" with - | v
  · simp only [h]
    rw [JVal.getField_setField_self]
    exact ⟨hasEntityKeys_flattened [], by simp⟩
  · cases v with
    | obj kef =>
      simp only [h]
      by_cases he : kef.isEmpty
      · rw [if_pos he, JVal.getField_setField_self]
        exact ⟨hasEntityKeys_flattened [], by simp⟩
      · rw [if_neg he]
        by_cases hk : hasEntityKeys kef
        · rw [if_pos hk, h]
          refine ⟨hk, ?_⟩
          intro h0
          rw [h0] at he
          simp at he
        · rw [if_neg hk, JVal.getField_setField_self]
          exact ⟨hasEntityKeys_flattened (kef.map Prod.fst), by simp⟩
    | str s =>
      simp only [h]
      rw [JVal.getField_setField_self]
      exact ⟨hasEntityKeys_flattened [], by simp⟩
    | num n =>
      simp only [h]
      rw [JVal.getField_setField_self]
      exact ⟨hasEntityKeys_flattened [], by simp⟩
    | bool b =>
      simp only [h]
      rw [JVal.getField_setField_self]
      exact ⟨hasEntityKeys_flattened [], by simp⟩
    | null =>
      simp only [h]
      rw [JVal.getField_setField_self]
      exact ⟨hasEntityKeys_flattened [], by simp⟩
    | arr xs =>
      simp only [h]
      rw [JVal.getField_setField_self]
      exact ⟨hasEntityKeys_flattened [], by simp⟩

lemma keStepPayload_eq_of_fixed {fs : List (String × JVal)}
    (h : keValFixedPayload (JVal.getField fs "key_entities")) :
    keStepPayload fs = fs := by
  unfold keStepPayload
  rcases hg : JVal.getField fs "key_entities" with - | v
  · rw [hg] at h
    exact absurd h (by simp [keValFixedPayload])
  · cases v with
    | obj kef =>
      rw [hg] at h
      have h2 : hasEntityKeys kef = true ∧ kef ≠ [] := h
      simp only [hg]
      rw [if_neg (by simpa using h2.2), if_pos h2.1]
    | str s =>
      rw [hg] at h
      exact absurd h (by simp [keValFixedPayload])
    | num n =>
      rw [hg] at h
      exact absurd h (by simp [keValFixedPayload])
    | bool b =>
      rw [hg] at h
      exact absurd h (by simp [keValFixedPayload])
    | null =>
      rw [hg] at h
      exact absurd h (by simp [keValFixedPayload])
    | arr xs =>
      rw [hg] at h
      exact absurd h (by simp [keValFixedPayload])

/-- Constructor-level equation for `normalizeQuizElem` on a dict. -/
lemma normalizeQuizElem_obj (qf : List (String × JVal)) :
    normalizeQuizElem (.obj qf) =
      (match JVal.getField qf "difficulty" with
       | some (.str s) =>
         .ok (.obj (JVal.setField qf "difficulty"
               (.str (pyLower (pyStrip s)))))
       | _ => .ok (.obj qf)) := rfl

lemma normalizeQuizElem_idem {q q' : JVal}
    (h : normalizeQuizElem q = .ok q') : normalizeQuizElem q' = .ok q' := by
  cases q with
  | obj qf =>
    rw [normalizeQuizElem_obj] at h
    rcases hd : JVal.getField qf "difficulty" with - | v
    · simp only [hd] at h
      cases h
      rw [normalizeQuizElem_obj, hd]
    · cases v with
      | str s =>
        simp only [hd] at h
        cases h
        rw [normalizeQuizElem_obj, JVal.getField_setField_self]
        show Except.ok (JVal.obj (JVal.setField (JVal.setField qf "difficulty"
            (JVal.str (pyLower (pyStrip s)))) "difficulty"
            (JVal.str (pyLower (pyStrip (pyLower (pyStrip s))))))) = _
        rw [stripLower_idem s, JVal.setField_setField_self]
      | num n => simp only [hd] at h; cases h; rw [normalizeQuizElem_obj, hd]
      | bool b => simp only [hd] at h; cases h; rw [normalizeQuizElem_obj, hd]
      | null => simp only [hd] at h; cases h; rw [normalizeQuizElem_obj, hd]
      | arr xs => simp only [hd] at h; cases h; rw [normalizeQuizElem_obj, hd]
      | obj g => simp only [hd] at h; cases h; rw [normalizeQuizElem_obj, hd]
  | str s => exact absurd h (by simp [normalizeQuizElem])
  | num n => exact absurd h (by simp [normalizeQuizElem])
  | bool b => exact absurd h (by simp [normalizeQuizElem])
  | null => exact absurd h (by simp [normalizeQuizElem])
  | arr xs => exact absurd h (by simp [normalizeQuizElem])

lemma normalizeQuizList_idem {qs qs' : List JVal}
    (h : normalizeQuizList qs = .ok qs') : normalizeQuizList qs' = .ok qs' := by
  induction qs generalizing qs' with
  | nil =>
    unfold normalizeQuizList at h
    cases h
    rfl
  | cons q rest ih =>
    unfold normalizeQuizList at h
    rcases he : normalizeQuizElem q with e | q1
    · rw [he] at h
      cases h
    · rw [he] at h
      rcases hr : normalizeQuizList rest with e | rest1
      · rw [hr] at h
        cases h
      · rw [hr] at h
        cases h
        unfold normalizeQuizList
        rw [normalizeQuizElem_idem he, ih hr]

/-- Constructor-level equation for `normalizeResult` on a dict. -/
lemma normalizeResult_obj (fields : List (String × JVal)) :
    normalizeResult (.obj fields) =
      (match JVal.getField (keStepResult fields) "quiz" with
       | some (.arr qs) =>
         match normalizeQuizList qs with
         | .error e => .error e
         | .ok qs' =>
           .ok (finalizeResultFields
                 (JVal.setField (keStepResult fields) "quiz" (.arr qs')))
       | _ => .ok (finalizeResultFields (keStepResult fields))) := rfl

/-- Constructor-level equation for `normalizePayload` on a dict. -/
lemma normalizePayload_obj (fields : List (String × JVal)) :
    normalizePayload (.obj fields) =
      (match JVal.getField (keStepPayload fields) "quiz" with
       | some (.arr qs) =>
         match normalizeQuizList qs with
         | .error e => .error e
         | .ok qs' =>
           .ok (.obj (JVal.setField (keStepPayload fields) "quiz" (.arr qs')))
       | some other =>
         match iterateQuizNonList other with
         | .error e => .error e
         | .ok _ => .ok (.obj (keStepPayload fields))
       | none => .ok (.obj (keStepPayload fields))) := rfl

/-- The `key_entities`/`quiz` fields are untouched by the two trailing
`setdefault` calls. -/
lemma getField_finalize_ne (fields2 : List (String × JVal)) {k : String}
    (h1 : k ≠ "sections") (h2 : k ≠ "related_topics") :
    JVal.getField (JVal.setDefault (JVal.setDefault fields2 "sections"
      (.arr [])) "related_topics" (.arr [])) k = JVal.getField fields2 k := by
  rw [JVal.getField_setDefault_ne _ _ (fun he => h2 he.symm),
    JVal.getField_setDefault_ne _ _ (fun he => h1 he.symm)]

lemma finalize_of_defaults (fields2 : List (String × JVal)) :
    finalizeResultFields
      (JVal.setDefault (JVal.setDefault fields2 "sections" (.arr []))
        "related_topics" (.arr [])) =
    .obj (JVal.setDefault (JVal.setDefault fields2 "sections" (.arr []))
        "related_topics" (.arr [])) := by
  unfold finalizeResultFields
  have hs : (JVal.getField (JVal.setDefault (JVal.setDefault fields2 "sections"
      (.arr [])) "related_topics" (.arr [])) "sections").isSome := by
    rw [JVal.getField_setDefault_ne _ _ (by decide)]
    exact JVal.isSome_getField_setDefault _ _ _
  rw [JVal.setDefault_of_isSome _ hs]
  rw [JVal.setDefault_of_isSome _ (JVal.isSome_getField_setDefault _ _ _)]

/-- Fields unchanged with fixed `key_entities` and self-normalised quiz
pass through `_normalize_result` untouched. -/
lemma normalizeResult_second_pass (F1 : List (String × JVal))
    (hfix : keValFixedResult (JVal.getField F1 "key_entities"))
    (hquiz : ∀ qs, JVal.getField F1 "quiz" = some (.arr qs) →
      normalizeQuizList qs = .ok qs) :
    normalizeResult (finalizeResultFields F1) =
      .ok (finalizeResultFields F1) := by
  have hfinF : finalizeResultFields F1 =
      .obj (JVal.setDefault (JVal.setDefault F1 "sections" (.arr []))
        "related_topics" (.arr [])) := rfl
  set G := JVal.setDefault (JVal.setDefault F1 "sections" (.arr []))
    "related_topics" (.arr []) with hGdef
  have hfixG : keValFixedResult (JVal.getField G "key_entities") := by
    rw [hGdef, getField_finalize_ne _ (by decide) (by decide)]
    exact hfix
  have hkeG : keStepResult G = G := keStepResult_eq_of_fixed hfixG
  have hquizG : JVal.getField G "quiz" = JVal.getField F1 "quiz" := by
    rw [hGdef]
    exact getField_finalize_ne _ (by decide) (by decide)
  have hfinG : finalizeResultFields G = .obj G := finalize_of_defaults F1
  rw [hfinF, normalizeResult_obj, hkeG]
  rcases hq2 : JVal.getField G "quiz" with - | qv
  · simp only [hq2, hfinG]
  · cases qv with
    | arr qs =>
      have hlist : normalizeQuizList qs = .ok qs := by
        apply hquiz
        rw [← hquizG]
        exact hq2
      simp only [hq2, hlist]
      rw [JVal.setField_eq_of_getField hq2, hfinG]
    | str s => simp only [hq2, hfinG]
    | num n => simp only [hq2, hfinG]
    | bool b => simp only [hq2, hfinG]
    | null => simp only [hq2, hfinG]
    | obj g => simp only [hq2, hfinG]

/-- `_normalize_result` is idempotent on success. -/
lemma normalizeResult_idem {v w : JVal} (h : normalizeResult v = .ok w) :
    normalizeResult w = .ok w := by
  cases v with
  | obj fields =>
    rw [normalizeResult_obj] at h
    rcases hq : JVal.getField (keStepResult fields) "quiz" with - | qv
    · simp only [hq] at h
      cases h
      exact normalizeResult_second_pass _ (keStepResult_fixed fields)
        (fun qs hqs => by rw [hq] at hqs; cases hqs)
    · cases qv with
      | arr qs =>
        rcases hn : normalizeQuizList qs with e | qs'
        · simp only [hq, hn] at h
          cases h
        · simp only [hq, hn] at h
          cases h
          apply normalizeResult_second_pass
          · rw [JVal.getField_setField_ne _ _ (by decide)]
            exact keStepResult_fixed fields
          · intro qs0 hqs0
            rw [JVal.getField_setField_self] at hqs0
            cases hqs0
            exact normalizeQuizList_idem hn
      | str s =>
        simp only [hq] at h
        cases h
        exact normalizeResult_second_pass _ (keStepResult_fixed fields)
          (fun qs hqs => by rw [hq] at hqs; cases hqs)
      | num n =>
        simp only [hq] at h
        cases h
        exact normalizeResult_second_pass _ (keStepResult_fixed fields)
          (fun qs hqs => by rw [hq] at hqs; cases hqs)
      | bool b =>
        simp only [hq] at h
        cases h
        exact normalizeResult_second_pass _ (keStepResult_fixed fields)
          (fun qs hqs => by rw [hq] at hqs; cases hqs)
      | null =>
        simp only [hq] at h
        cases h
        exact normalizeResult_second_pass _ (keStepResult_fixed fields)
          (fun qs hqs => by rw [hq] at hqs; cases hqs)
      | obj g =>
        simp only [hq] at h
        cases h
        exact normalizeResult_second_pass _ (keStepResult_fixed fields)
          (fun qs hqs => by rw [hq] at hqs; cases hqs)
  | str s => exact absurd h (by simp [normalizeResult])
  | num n => exact absurd h (by simp [normalizeResult])
  | bool b => exact absurd h (by simp [normalizeResult])
  | null => exact absurd h (by simp [normalizeResult])
  | arr xs => exact absurd h (by simp [normalizeResult])

lemma iterateQuizNonList_ok {x y : JVal} (h : iterateQuizNonList x = .ok y) :
    iterateQuizNonList x = .ok x := by
  cases x with
  | str s =>
    simp only [iterateQuizNonList] at h ⊢
    by_cases hs : s = ""
    · rw [if_pos hs]
    · rw [if_neg hs] at h
      cases h
  | obj fs =>
    simp only [iterateQuizNonList] at h ⊢
    by_cases hs : fs.isEmpty
    · rw [if_pos hs]
    · rw [if_neg hs] at h
      cases h
  | arr xs => rfl
  | num n => exact absurd h (by simp [iterateQuizNonList])
  | bool b => exact absurd h (by simp [iterateQuizNonList])
  | null => exact absurd h (by simp [iterateQuizNonList])

/-- Dicts with fixed `key_entities` and self-normalised quiz pass through
`_normalize_payload` untouched. -/
lemma normalizePayload_second_pass (F1 : List (String × JVal))
    (hfix : keValFixedPayload (JVal.getField F1 "key_entities"))
    (hquiz : ∀ qs, JVal.getField F1 "quiz" = some (.arr qs) →
      normalizeQuizList qs = .ok qs)
    (hother : ∀ other, JVal.getField F1 "quiz" = some other →
      (∀ qs, other ≠ .arr qs) → iterateQuizNonList other = .ok other) :
    normalizePayload (.obj F1) = .ok (.obj F1) := by
  have hkeF : keStepPayload F1 = F1 := keStepPayload_eq_of_fixed hfix
  rw [normalizePayload_obj, hkeF]
  rcases hq2 : JVal.getField F1 "quiz" with - | qv
  · simp only [hq2]
  · cases qv with
    | arr qs =>
      have hlist : normalizeQuizList qs = .ok qs := hquiz qs hq2
      simp only [hq2, hlist]
      rw [JVal.setField_eq_of_getField hq2]
    | str s =>
      have hi := hother _ hq2 (fun qs hne => by cases hne)
      simp only [hq2, hi]
    | num n =>
      have hi := hother _ hq2 (fun qs hne => by cases hne)
      simp only [hq2, hi]
    | bool b =>
      have hi := hother _ hq2 (fun qs hne => by cases hne)
      simp only [hq2, hi]
    | null =>
      have hi := hother _ hq2 (fun qs hne => by cases hne)
      simp only [hq2, hi]
    | obj g =>
      have hi := hother _ hq2 (fun qs hne => by cases hne)
      simp only [hq2, hi]

/-- `_normalize_payload` is idempotent on success. -/
lemma normalizePayload_idem {v w : JVal} (h : normalizePayload v = .ok w) :
    normalizePayload w = .ok w := by
  cases v with
  | obj fields =>
    rw [normalizePayload_obj] at h
    rcases hq : JVal.getField (keStepPayload fields) "quiz" with - | qv
    · simp only [hq] at h
      cases h
      exact normalizePayload_second_pass _ (keStepPayload_fixed fields)
        (fun qs hqs => by rw [hq] at hqs; cases hqs)
        (fun other hqs => by rw [hq] at hqs; cases hqs)
    · cases qv with
      | arr qs =>
        rcases hn : normalizeQuizList qs with e | qs'
        · simp only [hq, hn] at h
          cases h
        · simp only [hq, hn] at h
          cases h
          apply normalizePayload_second_pass
          · rw [JVal.getField_setField_ne _ _ (by decide)]
            exact keStepPayload_fixed fields
          · intro qs0 hqs0
            rw [JVal.getField_setField_self] at hqs0
            cases hqs0
            exact normalizeQuizList_idem hn
          · intro other hqs0 hne
            rw [JVal.getField_setField_self] at hqs0
            cases hqs0
            exact absurd rfl (hne qs')
      | str s =>
        rcases hi : iterateQuizNonList (.str s) with e | y
        · simp only [hq, hi] at h
          cases h
        · simp only [hq, hi] at h
          cases h
          exact normalizePayload_second_pass _ (keStepPayload_fixed fields)
            (fun qs hqs => by rw [hq] at hqs; cases hqs)
            (fun other hqs hne => by
              rw [hq] at hqs
              cases hqs
              exact iterateQuizNonList_ok hi)
      | num n =>
        rcases hi : iterateQuizNonList (.num n) with e | y
        · simp only [hq, hi] at h
          cases h
        · simp only [hq, hi] at h
          cases h
          exact normalizePayload_second_pass _ (keStepPayload_fixed fields)
            (fun qs hqs => by rw [hq] at hqs; cases hqs)
            (fun other hqs hne => by
              rw [hq] at hqs
              cases hqs
              exact iterateQuizNonList_ok hi)
      | bool b =>
        rcases hi : iterateQuizNonList (.bool b) with e | y
        · simp only [hq, hi] at h
          cases h
        · simp only [hq, hi] at h
          cases h
          exact normalizePayload_second_pass _ (keStepPayload_fixed fields)
            (fun qs hqs => by rw [hq] at hqs; cases hqs)
            (fun other hqs hne => by
              rw [hq] at hqs
              cases hqs
              exact iterateQuizNonList_ok hi)
      | null =>
        rcases hi : iterateQuizNonList .null with e | y
        · simp only [hq, hi] at h
          cases h
        · simp only [hq, hi] at h
          cases h
          exact normalizePayload_second_pass _ (keStepPayload_fixed fields)
            (fun qs hqs => by rw [hq] at hqs; cases hqs)
            (fun other hqs hne => by
              rw [hq] at hqs
              cases hqs
              exact iterateQuizNonList_ok hi)
      | obj g =>
        rcases hi : iterateQuizNonList (.obj g) with e | y
        · simp only [hq, hi] at h
          cases h
        · simp only [hq, hi] at h
          cases h
          exact normalizePayload_second_pass _ (keStepPayload_fixed fields)
            (fun qs hqs => by rw [hq] at hqs; cases hqs)
            (fun other hqs hne => by
              rw [hq] at hqs
              cases hqs
              exact iterateQuizNonList_ok hi)
  | str s => exact absurd h (by simp [normalizePayload])
  | num n => exact absurd h (by simp [normalizePayload])
  | bool b => exact absurd h (by simp [normalizePayload])
  | null => exact absurd h (by simp [normalizePayload])
  | arr xs => exact absurd h (by simp [normalizePayload])


/-- C9: both normalization guardrail passes are idempotent — applying
`_normalize_result` (service layer) or `_normalize_payload` (API layer)
to its own successful output changes nothing: the `key_entities`
coercion, difficulty lowercasing/trimming, and sequence defaulting all
leave an already-normalized object unchanged. -/
theorem normalization_idempotent :
    (∀ v w : JVal, normalizeResult v = .ok w → normalizeResult w = .ok w) ∧
    (∀ v w : JVal, normalizePayload v = .ok w → normalizePayload w = .ok w) :=
  ⟨fun _ _ h => normalizeResult_idem h, fun _ _ h => normalizePayload_idem h⟩

/-- Witness for C9: the concrete normalized outputs of `sampleRawPayload`
are fixed points of their respective passes. -/
theorem normalization_idempotent_witness :
    normalizeResult sampleNormalizedResult = .ok sampleNormalizedResult ∧
    normalizePayload sampleNormalizedPayload = .ok sampleNormalizedPayload :=
  ⟨normalization_idempotent.1 sampleRawPayload sampleNormalizedResult (by rfl),
   normalization_idempotent.2 sampleRawPayload sampleNormalizedPayload (by rfl)⟩

/-! ## Helper lemmas about the grader -/

lemma findIdx?_lt_length {α : Type} {p : α → Bool} {l : List α} {i : Nat}
    (h : l.findIdx? p = some i) : i < l.length := by
  rcases List.findIdx?_eq_some_iff_getElem.mp h with ⟨hlt, -⟩
  exact hlt

/-- The derived correct index is always in `[-1, opts.length)`. -/
lemma deriveCorrectIndex_range (opts : List String) (ans : String) :
    -1 ≤ deriveCorrectIndex opts ans ∧
    deriveCorrectIndex opts ans < (opts.length : Int) := by
  unfold deriveCorrectIndex
  rcases h1 : opts.findIdx? (fun o => o = ans) with - | i
  · rcases h2 : opts.findIdx? (fun o => normAns o = normAns ans) with - | j
    · simp only [h1, h2]
      exact ⟨le_refl _, by omega⟩
    · have hj := findIdx?_lt_length h2
      simp only [h1, h2]
      exact ⟨by omega, by exact_mod_cast hj⟩
  · have hi := findIdx?_lt_length h1
    simp only [h1]
    exact ⟨by omega, by exact_mod_cast hi⟩

lemma gradeLoop_length (n : Nat) (l : List (Int × QuizItem)) :
    (gradeLoop n l).1.length = l.length := by
  induction l generalizing n with
  | nil => simp [gradeLoop]
  | cons p rest ih => cases p; simp [gradeLoop, ih]

lemma gradeLoop_count (n : Nat) (l : List (Int × QuizItem)) :
    (gradeLoop n l).2 = l.countP (fun p =>
      decide (p.1 = deriveCorrectIndex p.2.options p.2.answer ∧
              deriveCorrectIndex p.2.options p.2.answer ≠ -1)) := by
  induction l generalizing n with
  | nil => simp [gradeLoop]
  | cons p rest ih =>
    cases p with
    | mk u q =>
      simp only [gradeLoop, List.countP_cons, ih]
      split <;> simp_all [Nat.add_comm]

/-- Shape of the `i`-th per-question result. -/
lemma gradeLoop_get? (n : Nat) (l : List (Int × QuizItem)) (i : Nat) :
    (gradeLoop n l).1.get? i = (l.get? i).map (fun p =>
      { index := n + i, chosen := p.1,
        correct := deriveCorrectIndex p.2.options p.2.answer,
        is_correct := decide (p.1 = deriveCorrectIndex p.2.options p.2.answer ∧
                              deriveCorrectIndex p.2.options p.2.answer ≠ -1),
        explanation := p.2.explanation,
        evidence_span := p.2.evidence_span }) := by
  induction l generalizing n i with
  | nil => simp [gradeLoop]
  | cons p rest ih =>
    cases p with
    | mk u q =>
      cases i with
      | zero => simp [gradeLoop]
      | succ j =>
        simp only [gradeLoop, List.get?_cons_succ, ih (n + 1) j]
        have : n + 1 + j = n + (j + 1) := by omega
        rw [this]

/-- C2: for every stored quiz and every submitted answer list of matching
length, grading succeeds (never a division fault) and returns
`score = round(correct_count / total * 100, 2)`, with `score = 0.0` when
the record has zero questions. -/
theorem grade_score_formula (questions : List QuizItem) (answers : List Int)
    (h : answers.length = questions.length) :
    ∃ r, gradeQuiz questions answers = .ok r ∧
      r.total = questions.length ∧
      r.correct = countCorrect questions answers ∧
      r.score = (if questions.length = 0 then (0 : ℚ)
                 else pyRound2 (((countCorrect questions answers : ℚ) /
                                 (questions.length : ℚ)) * 100)) := by
  have hok : gradeQuiz questions answers =
      .ok { total := questions.length,
            correct := (gradeLoop 0 (answers.zip questions)).2,
            score := if questions.length ≠ 0 then
                pyRound2 ((((gradeLoop 0 (answers.zip questions)).2 : ℚ) /
                           (questions.length : ℚ)) * 100)
              else 0,
            results := (gradeLoop 0 (answers.zip questions)).1 } := by
    unfold gradeQuiz
    rw [if_neg (by omega)]
  refine ⟨_, hok, rfl, ?_, ?_⟩
  · exact gradeLoop_count 0 (answers.zip questions)
  · show (if questions.length ≠ 0 then
            pyRound2 ((((gradeLoop 0 (answers.zip questions)).2 : ℚ) /
                       (questions.length : ℚ)) * 100)
          else 0) = _
    rw [gradeLoop_count]
    rcases Nat.eq_zero_or_pos questions.length with h0 | h0
    · simp [h0]
    · rw [if_pos (by omega), if_neg (by omega)]
      rfl

/-- Witness for C2 at a concrete three-question record. -/
theorem grade_score_formula_witness :
    ∃ r, gradeQuiz sampleQuestions [0, 1, 2] = .ok r ∧
      r.total = sampleQuestions.length ∧
      r.correct = countCorrect sampleQuestions [0, 1, 2] ∧
      r.score = (if sampleQuestions.length = 0 then (0 : ℚ)
                 else pyRound2 (((countCorrect sampleQuestions [0, 1, 2] : ℚ) /
                                 (sampleQuestions.length : ℚ)) * 100)) :=
  grade_score_formula sampleQuestions [0, 1, 2] (by decide)

/-- C4: a grade request whose answers list length differs from the stored
question count fails with the answer-count-mismatch error (and nothing
else produces that error); per-item results are produced exactly when the
lengths agree. -/
theorem grade_count_mismatch (questions : List QuizItem) (answers : List Int) :
    (answers.length ≠ questions.length ↔
      gradeQuiz questions answers = .error .answerCountMismatch) ∧
    (answers.length = questions.length →
      ∃ r, gradeQuiz questions answers = .ok r ∧
        r.results.length = questions.length) := by
  constructor
  · constructor
    · intro hne
      unfold gradeQuiz
      rw [if_pos hne]
    · intro heq
      by_contra hne
      unfold gradeQuiz at heq
      rw [if_neg (by omega)] at heq
      cases heq
  · intro h
    have hok : gradeQuiz questions answers =
        .ok { total := questions.length,
              correct := (gradeLoop 0 (answers.zip questions)).2,
              score := if questions.length ≠ 0 then
                  pyRound2 ((((gradeLoop 0 (answers.zip questions)).2 : ℚ) /
                             (questions.length : ℚ)) * 100)
                else 0,
              results := (gradeLoop 0 (answers.zip questions)).1 } := by
      unfold gradeQuiz
      rw [if_neg (by omega)]
    refine ⟨_, hok, ?_⟩
    show (gradeLoop 0 (answers.zip questions)).1.length = questions.length
    rw [gradeLoop_length, List.length_zip, h, Nat.min_self]

/-- Witness for C4: a two-question record graded with three answers. -/
theorem grade_count_mismatch_witness :
    ((3 : Nat) ≠ 2 ↔
      gradeQuiz (sampleQuestions.take 2) [0, 1, 2] = .error .answerCountMismatch) ∧
    ((3 : Nat) = 2 →
      ∃ r, gradeQuiz (sampleQuestions.take 2) [0, 1, 2] = .ok r ∧
        r.results.length = 2) :=
  grade_count_mismatch (sampleQuestions.take 2) [0, 1, 2]

/-- C3: the stored answer text is resolved by exact match first, then by
case/whitespace-insensitive match; with no match the correct index is
`-1`, and such an item is scored incorrect for every submitted answer. -/
theorem derive_answer_resolution (opts : List String) (ans : String) :
    (∀ i (hi : i < opts.length), opts.get ⟨i, hi⟩ = ans →
        (∀ j (hj : j < opts.length), j < i → opts.get ⟨j, hj⟩ ≠ ans) →
        deriveCorrectIndex opts ans = i) ∧
    ((∀ o ∈ opts, o ≠ ans) →
      ∀ i (hi : i < opts.length), normAns (opts.get ⟨i, hi⟩) = normAns ans →
        (∀ j (hj : j < opts.length), j < i →
          normAns (opts.get ⟨j, hj⟩) ≠ normAns ans) →
        deriveCorrectIndex opts ans = i) ∧
    ((∀ o ∈ opts, o ≠ ans ∧ normAns o ≠ normAns ans) →
      deriveCorrectIndex opts ans = -1) ∧
    (∀ (questions : List QuizItem) (answers : List Int) r,
      gradeQuiz questions answers = .ok r →
      ∀ i pr, r.results.get? i = some pr → pr.correct = -1 →
        pr.is_correct = false) := by
  refine ⟨?_, ?_, ?_, ?_⟩
  · intro i hi hmatch hprev
    have hfind : opts.findIdx? (fun o => o = ans) = some i := by
      apply List.findIdx?_eq_some_iff_getElem.mpr
      refine ⟨hi, by simpa using hmatch, fun j hj => ?_⟩
      simpa using hprev j (by omega) hj
    unfold deriveCorrectIndex
    simp [hfind]
  · intro hnoexact i hi hmatch hprev
    have hnone : opts.findIdx? (fun o => o = ans) = none := by
      apply List.findIdx?_eq_none_iff.mpr
      intro x hx
      simpa using hnoexact x hx
    have hfind : opts.findIdx? (fun o => normAns o = normAns ans) = some i := by
      apply List.findIdx?_eq_some_iff_getElem.mpr
      refine ⟨hi, by simpa using hmatch, fun j hj => ?_⟩
      simpa using hprev j (by omega) hj
    unfold deriveCorrectIndex
    simp [hnone, hfind]
  · intro hnone
    have h1 : opts.findIdx? (fun o => o = ans) = none := by
      apply List.findIdx?_eq_none_iff.mpr
      intro x hx
      simpa using (hnone x hx).1
    have h2 : opts.findIdx? (fun o => normAns o = normAns ans) = none := by
      apply List.findIdx?_eq_none_iff.mpr
      intro x hx
      simpa using (hnone x hx).2
    unfold deriveCorrectIndex
    simp [h1, h2]
  · intro questions answers r hr i pr hpr hcorr
    unfold gradeQuiz at hr
    by_cases hlen : answers.length ≠ questions.length
    · rw [if_pos hlen] at hr
      cases hr
    · rw [if_neg hlen] at hr
      cases hr
      rw [gradeLoop_get?] at hpr
      rcases hz : (answers.zip questions).get? i with - | p
      · rw [hz] at hpr
        cases hpr
      · rw [hz] at hpr
        simp only [Option.map_some'] at hpr
        cases hpr
        simp only at hcorr
        simp [hcorr]

/-- Witness for C3 at the malformed sample item. -/
theorem derive_answer_resolution_witness :
    deriveCorrectIndex ["x", "y", "z", "w"] "missing" = -1 :=
  (derive_answer_resolution ["x", "y", "z", "w"] "missing").2.2.1
    (by decide)

/-- C10: the grader performs no range validation on submitted indices:
with well-formed stored items (4 options each) grading succeeds for any
integers, and an out-of-range submission (negative or above 3) is scored
incorrect. -/
theorem grade_accepts_any_index (questions : List QuizItem)
    (answers : List Int)
    (hlen : answers.length = questions.length)
    (hopts : ∀ q ∈ questions, q.options.length = 4) :
    ∃ r, gradeQuiz questions answers = .ok r ∧
      ∀ pr ∈ r.results, (pr.chosen < 0 ∨ 3 < pr.chosen) →
        pr.is_correct = false := by
  have hok : gradeQuiz questions answers =
      .ok { total := questions.length,
            correct := (gradeLoop 0 (answers.zip questions)).2,
            score := if questions.length ≠ 0 then
                pyRound2 ((((gradeLoop 0 (answers.zip questions)).2 : ℚ) /
                           (questions.length : ℚ)) * 100)
              else 0,
            results := (gradeLoop 0 (answers.zip questions)).1 } := by
    unfold gradeQuiz
    rw [if_neg (by omega)]
  refine ⟨_, hok, ?_⟩
  · intro pr hpr hrange
    rcases List.mem_iff_get?.mp hpr with ⟨i, hi⟩
    rw [gradeLoop_get?] at hi
    rcases hz : (answers.zip questions).get? i with - | p
    · rw [hz] at hi
      cases hi
    · rw [hz] at hi
      simp only [Option.map_some'] at hi
      cases hi
      have hq : p.2 ∈ questions := by
        have hmem := List.get?_mem hz
        exact (List.of_mem_zip hmem).2
      have h4 := hopts p.2 hq
      have hb := deriveCorrectIndex_range p.2.options p.2.answer
      rw [h4] at hb
      simp only [decide_eq_false_iff_not]
      rintro ⟨hEq, hne⟩
      simp only at hrange
      omega

/-- Witness for C10: submitting `-1` and `7` against well-formed items. -/
theorem grade_accepts_any_index_witness :
    ∃ r, gradeQuiz (sampleQuestions.take 2) [-1, 7] = .ok r ∧
      ∀ pr ∈ r.results, (pr.chosen < 0 ∨ 3 < pr.chosen) →
        pr.is_correct = false :=
  grade_accepts_any_index (sampleQuestions.take 2) [-1, 7] (by decide)
    (by decide)

/-! ## Claim theorems: generation pipeline -/

/-- Counterexample to C5 as stated: on a draft that fails schema
validation, the backend `generate_quiz_payload` does *not* re-invoke the
model — the run makes exactly one model call and terminates at once with
the validation error (the repair call site is commented out; no
`GenerationInvalid`-after-second-attempt path exists). -/
theorem generation_repair_counterexample :
    (generateQuizPayload (.ok sampleInvalidDraft)).result =
      .error .validationError ∧
    (generateQuizPayload (.ok sampleInvalidDraft)).modelCalls = 1 :=
  ⟨rfl, rfl⟩

/-- C5 (amended): the backend pipeline performs no self-repair at all —
every run makes exactly one model call (so "at most once" holds
vacuously), and a schema validation failure after normalization
propagates directly as a validation error without any repair
re-invocation. -/
theorem generation_no_repair (outcome : ModelOutcome) :
    (generateQuizPayload outcome).modelCalls = 1 ∧
    (∀ v v', outcome = .ok v → normalizeResult v = .ok v' →
      quizOutputValid v' = false →
      (generateQuizPayload outcome).result = .error .validationError) := by
  constructor
  · cases outcome with
    | raises e => rfl
    | ok v =>
      unfold generateQuizPayload
      rcases hn : normalizeResult v with e | v'
      · simp only [hn]
      · simp only [hn]
        split <;> rfl
  · intro v v' ho hn hvalid
    subst ho
    unfold generateQuizPayload
    simp only [hn]
    rw [if_neg (by simp [hvalid])]

/-- Witness for C5 (amended) at the concrete invalid draft. -/
theorem generation_no_repair_witness :
    (generateQuizPayload (.ok sampleInvalidDraft)).modelCalls = 1 ∧
    (generateQuizPayload (.ok sampleInvalidDraft)).result =
      .error .validationError :=
  ⟨(generation_no_repair (.ok sampleInvalidDraft)).1,
   (generation_no_repair (.ok sampleInvalidDraft)).2 sampleInvalidDraft
     (.obj [("title", .str "T"),
            ("key_entities", flattenedEntities []),
            ("sections", .arr []),
            ("related_topics", .arr [])])
     rfl (by rfl) (by rfl)⟩

/-- C7: the `except ResourceExhausted` handler in the backend
`generate_quiz_payload` references the names `ResourceExhausted` and `re`,
neither of which is imported in that module, so a rate-limit signal from
the model call terminates the request with a `NameError` — the
`RateLimitError(retry_after=...)` construction is unreachable. -/
theorem rate_limit_name_error :
    (generateQuizPayload (.raises (.resourceExhausted
        "429 Resource has been exhausted"))).result =
      .error (.nameError "ResourceExhausted") ∧
    (generateQuizPayload (.raises (.resourceExhausted
        "429 Resource has been exhausted"))).modelCalls = 1 :=
  ⟨rfl, rfl⟩

/-! ## Claim theorems: dedup cache and endpoint flows -/

lemma mem_le_foldr_max (l : List Nat) (a : Nat) (h : a ∈ l) :
    a ≤ l.foldr max 0 := by
  induction l with
  | nil => cases h
  | cons b rest ih =>
    rcases List.mem_cons.mp h with rfl | hm
    · exact le_max_left _ _
    · exact le_trans (ih hm) (le_max_right _ _)

lemma nextId_not_mem {db : Store} {r : QuizRecord} (h : r ∈ db) :
    r.id ≠ nextId db := by
  have := mem_le_foldr_max (db.map QuizRecord.id) r.id
    (List.mem_map_of_mem _ h)
  unfold nextId
  omega

/-- With unique ids, a record that is the only one satisfying `p` is the
whole filter result. -/
lemma filter_eq_singleton {db : Store} {r : QuizRecord}
    {p : QuizRecord → Bool}
    (hmem : r ∈ db) (hr : p r = true)
    (huniq : ∀ r' ∈ db, p r' = true → r' = r)
    (hnodup : (db.map QuizRecord.id).Nodup) :
    db.filter p = [r] := by
  have hdbnodup : db.Nodup := hnodup.of_map
  have hall : ∀ x ∈ db.filter p, x = r := fun x hx =>
    huniq x (List.mem_of_mem_filter hx) (List.of_mem_filter hx)
  have hmemf : r ∈ db.filter p := List.mem_filter.mpr ⟨hmem, hr⟩
  have hnf : (db.filter p).Nodup := hdbnodup.filter p
  rcases hf : db.filter p with - | ⟨x, xs⟩
  · rw [hf] at hmemf
    cases hmemf
  · have hx : x = r := hall x (by rw [hf]; exact List.mem_cons_self x xs)
    have hxs : xs = [] := by
      by_contra hne
      rcases List.exists_mem_of_ne_nil xs hne with ⟨y, hy⟩
      have hyr : y = r := hall y (by rw [hf]; exact List.mem_cons_of_mem _ hy)
      rw [hf] at hnf
      have hnotin := (List.nodup_cons.mp hnf).1
      rw [hx] at hnotin
      rw [hyr] at hy
      exact hnotin hy
    rw [hx, hxs]

/-- `force=false` request: the endpoint is the dedup lookup followed by
the fresh-generation tail. -/
lemma backendGenerateQuiz_false_eq (H : String → String) (db : Store)
    (url title text : String) (gen : Except Unit JVal) :
    backendGenerateQuiz H db false url title text gen =
      (match lookupQuiz db (H url) (H text) with
       | .error _ => { response := .error .internalError, db := db,
                       generationInvoked := false }
       | .ok (some r) => { response := .ok (r.id, r.full_quiz_data),
                           db := db, generationInvoked := false }
       | .ok none => generateFresh H db url title text (H text) gen) := rfl

/-- `force=true` request: the lookup is bypassed entirely. -/
lemma backendGenerateQuiz_true_eq (H : String → String) (db : Store)
    (url title text : String) (gen : Except Unit JVal) :
    backendGenerateQuiz H db true url title text gen =
      generateFresh H db url title text (H text) gen := rfl

/-- Counterexample to C1 as stated: with two stored records sharing the
same fingerprint pair (the state two `force=true` regenerations leave
behind), a `force=false` request matching both does *not* return the
existing record — `scalar_one_or_none` raises `MultipleResultsFound` and
the request fails with a 500, returning no record at all. -/
theorem dedup_multiple_match_counterexample :
    (backendGenerateQuiz (fun s => s) [dupRecordA, dupRecordB] false
        "https://en.wikipedia.org/wiki/X" "X" "body" (.ok .null)).response =
      .error .internalError ∧
    (backendGenerateQuiz (fun s => s) [dupRecordA, dupRecordB] false
        "https://en.wikipedia.org/wiki/X" "X" "body"
        (.ok .null)).generationInvoked = false ∧
    dupRecordA.url_hash = dupRecordB.url_hash ∧
    dupRecordA.content_hash = dupRecordB.content_hash ∧
    dupRecordA.id ≠ dupRecordB.id :=
  ⟨rfl, rfl, rfl, rfl, by decide⟩

/-- C1 (amended): with `force=false`, when exactly one stored record
carries the request's fingerprint pair, the lookup returns that record
(same id) and generation is skipped; when every stored record differs in
at least one fingerprint the lookup misses and generation runs; and
`force=true` bypasses the lookup, creating a new record under a fresh id
no existing record carries.  (When several records share the pair the
lookup raises instead — see the counterexample.) -/
theorem dedup_cache_behavior :
    (∀ (H : String → String) (db : Store) (url title text : String)
       (gen : Except Unit JVal) (r : QuizRecord),
       r ∈ db →
       r.url_hash = H url → r.content_hash = H text →
       (∀ r' ∈ db, r'.url_hash = H url → r'.content_hash = H text → r' = r) →
       (db.map QuizRecord.id).Nodup →
       (backendGenerateQuiz H db false url title text gen).response =
         .ok (r.id, r.full_quiz_data) ∧
       (backendGenerateQuiz H db false url title text gen).generationInvoked =
         false) ∧
    (∀ (H : String → String) (db : Store) (url title text : String)
       (gen : Except Unit JVal),
       (∀ r' ∈ db, r'.url_hash ≠ H url ∨ r'.content_hash ≠ H text) →
       (backendGenerateQuiz H db false url title text gen).generationInvoked =
         true) ∧
    (∀ (H : String → String) (db : Store) (url title text : String)
       (payload : JVal),
       (backendGenerateQuiz H db true url title text
         (.ok payload)).generationInvoked = true ∧
       (backendGenerateQuiz H db true url title text (.ok payload)).response =
         .ok (nextId db, payload) ∧
       (∀ r' ∈ db, r'.id ≠ nextId db)) := by
  refine ⟨?_, ?_, ?_⟩
  · intro H db url title text gen r hmem hu hc huniq hnodup
    have hfilter : db.filter
        (fun r' => r'.url_hash = H url && r'.content_hash = H text) = [r] := by
      apply filter_eq_singleton hmem
      · simp [hu, hc]
      · intro r' h' hp
        simp only [Bool.and_eq_true, decide_eq_true_eq] at hp
        exact huniq r' h' hp.1 hp.2
      · exact hnodup
    have hlook : lookupQuiz db (H url) (H text) = .ok (some r) := by
      unfold lookupQuiz
      rw [hfilter]
    rw [backendGenerateQuiz_false_eq, hlook]
    exact ⟨rfl, rfl⟩
  · intro H db url title text gen hmiss
    have hfilter : db.filter
        (fun r' => r'.url_hash = H url && r'.content_hash = H text) = [] := by
      apply List.filter_eq_nil_iff.mpr
      intro r' h'
      rcases hmiss r' h' with h1 | h1 <;> simp [h1]
    have hlook : lookupQuiz db (H url) (H text) = .ok none := by
      unfold lookupQuiz
      rw [hfilter]
    rw [backendGenerateQuiz_false_eq, hlook]
    cases gen with
    | error e => rfl
    | ok p => rfl
  · intro H db url title text payload
    rw [backendGenerateQuiz_true_eq]
    exact ⟨rfl, rfl, fun r' h' => nextId_not_mem h'⟩

/-- Witness for C1 (amended): a one-record store hit, and a forced
regeneration over the same store. -/
theorem dedup_cache_behavior_witness :
    ((backendGenerateQuiz (fun s => s) [dupRecordA] false
        "https://en.wikipedia.org/wiki/X" "X" "body" (.ok .null)).response =
      .ok (dupRecordA.id, dupRecordA.full_quiz_data) ∧
     (backendGenerateQuiz (fun s => s) [dupRecordA] false
        "https://en.wikipedia.org/wiki/X" "X" "body"
        (.ok .null)).generationInvoked = false) ∧
    ((backendGenerateQuiz (fun s => s) [dupRecordA] true
        "https://en.wikipedia.org/wiki/X" "X" "body"
        (.ok .null)).generationInvoked = true ∧
     (backendGenerateQuiz (fun s => s) [dupRecordA] true
        "https://en.wikipedia.org/wiki/X" "X" "body" (.ok .null)).response =
       .ok (nextId [dupRecordA], .null) ∧
     (∀ r' ∈ [dupRecordA], r'.id ≠ nextId [dupRecordA])) :=
  ⟨dedup_cache_behavior.1 (fun s => s) [dupRecordA]
      "https://en.wikipedia.org/wiki/X" "X" "body" (.ok .null) dupRecordA
      (by simp) rfl rfl
      (fun r' h' _ _ => by simpa using h')
      (by simp),
   dedup_cache_behavior.2.2 (fun s => s) [dupRecordA]
      "https://en.wikipedia.org/wiki/X" "X" "body" .null⟩

set_option maxRecDepth 4000 in
/-- Counterexample to C6 as stated: the backend `generate_quiz` performs
no minimum-length check — a 199-character article body (already free of
whitespace runs, hence fixed by normalization) flows straight into the
generation pipeline and the request succeeds. -/
theorem short_article_counterexample :
    text199.length = 199 ∧
    (backendGenerateQuiz (fun s => s) [] false
        "https://en.wikipedia.org/wiki/X" "X" text199
        (.ok .null)).generationInvoked = true ∧
    (backendGenerateQuiz (fun s => s) [] false
        "https://en.wikipedia.org/wiki/X" "X" text199 (.ok .null)).response =
      .ok (1, .null) :=
  ⟨rfl, rfl, rfl⟩

/-- C6 (amended): only the legacy `src/app` endpoint rejects bodies
shorter than 200 characters (including exactly 199) with a 502 before
invoking generation; the backend endpoint has no such check and invokes
the generation pipeline whenever the dedup lookup misses, whatever the
body length. -/
theorem min_length_check :
    (∀ (H : String → String) (db : Store) (force : Bool)
       (url title text : String) (gen : Except Unit JVal),
       text.length < 200 →
       (appGenerateQuiz H db force url title text gen).response =
         .error (.badGateway "Article text too short or failed to extract") ∧
       (appGenerateQuiz H db force url title text gen).generationInvoked =
         false) ∧
    (∀ (H : String → String) (url title text : String) (payload : JVal),
       (backendGenerateQuiz H [] false url title text
         (.ok payload)).generationInvoked = true) := by
  constructor
  · intro H db force url title text gen h
    unfold appGenerateQuiz
    rw [if_pos (by simp [h])]
    exact ⟨rfl, rfl⟩
  · intro H url title text payload
    rfl

set_option maxRecDepth 4000 in
/-- Witness for C6 (amended) at the 199-character body. -/
theorem min_length_check_witness :
    ((appGenerateQuiz (fun s => s) [] false "https://en.wikipedia.org/wiki/X"
        "X" text199 (.ok .null)).response =
      .error (.badGateway "Article text too short or failed to extract") ∧
     (appGenerateQuiz (fun s => s) [] false "https://en.wikipedia.org/wiki/X"
        "X" text199 (.ok .null)).generationInvoked = false) ∧
    (backendGenerateQuiz (fun s => s) [] false
        "https://en.wikipedia.org/wiki/X" "X" text199
        (.ok .null)).generationInvoked = true :=
  ⟨min_length_check.1 (fun s => s) [] false "https://en.wikipedia.org/wiki/X"
      "X" text199 (.ok .null) (by decide),
   min_length_check.2 (fun s => s) "https://en.wikipedia.org/wiki/X" "X"
      text199 .null⟩

/-! ## Claim theorems: fallback generator -/

lemma buildQuestion_valid (sh : ShuffleOracle)
    (hlen : ∀ k l, (sh k l).length = l.length) (k : Nat)
    (sentence answer : String) (distractors : List String) :
    validItem (buildQuestion sh k sentence answer distractors).1 := by
  refine ⟨?_, Or.inr (Or.inl rfl)⟩
  show (sh k ((answer :: distractors.take 3) ++
      List.replicate (4 - (answer :: distractors.take 3).length)
        "None of the above")).length = 4
  rw [hlen, List.length_append, List.length_replicate]
  have h3 : (distractors.take 3).length ≤ 3 := by
    rw [List.length_take]
    omega
  simp only [List.length_cons]
  omega

lemma filter_ne_length_ge {l : List String} (hnd : l.Nodup) (a : String) :
    l.length - 1 ≤ (l.filter (fun o => o ≠ a)).length := by
  induction l with
  | nil => simp
  | cons b rest ih =>
    rcases List.nodup_cons.mp hnd with ⟨hb, hrest⟩
    by_cases hba : b = a
    · subst hba
      have hrest_eq : rest.filter (fun o => o ≠ b) = rest := by
        apply List.filter_eq_self.mpr
        intro x hx
        simp only [ne_eq, decide_not, Bool.not_eq_true', decide_eq_false_iff_not]
        intro hxb
        rw [hxb] at hx
        exact hb hx
      rw [List.filter_cons_of_neg (by simp), hrest_eq]
      simp
    · rw [List.filter_cons_of_pos (by simpa using hba)]
      have := ih hrest
      simp only [List.length_cons]
      omega

lemma genericQuestion_valid (sh : ShuffleOracle)
    (hlen : ∀ k l, (sh k l).length = l.length) (k : Nat) (title : String) :
    validItem (genericQuestion sh k title).1 := by
  refine ⟨?_, Or.inl rfl⟩
  show (sh (k + 1) (title ::
      (sh k (GENERIC_DISTRACTORS.filter (fun o => o ≠ title))).take 3)).length = 4
  have hpool : 3 ≤ (GENERIC_DISTRACTORS.filter (fun o => o ≠ title)).length := by
    have hnd : GENERIC_DISTRACTORS.Nodup := by decide
    have := filter_ne_length_ge hnd title
    have hlen6 : GENERIC_DISTRACTORS.length = 6 := rfl
    omega
  rw [hlen, List.length_cons, List.length_take, hlen]
  omega

lemma fbLoop1_inv (sh : ShuffleOracle)
    (hlen : ∀ k l, (sh k l).length = l.length)
    (entities : List String) (maxQ : Nat) :
    ∀ (sents : List String) (items : List QuizItem) (k : Nat),
      (∀ it ∈ items, validItem it) →
      ∀ it ∈ (fbLoop1 sh entities maxQ sents items k).1, validItem it := by
  intro sents
  induction sents with
  | nil => intro items k hinv it hit; exact hinv it hit
  | cons sentence rest ih =>
    intro items k hinv it hit
    unfold fbLoop1 at hit
    by_cases hm : maxQ ≤ items.length
    · rw [if_pos hm] at hit
      exact hinv it hit
    · rw [if_neg hm] at hit
      rcases hc : extractEntities sentence with - | ⟨answer, cs⟩
      · rw [hc] at hit
        exact ih items k hinv it hit
      · rw [hc] at hit
        refine ih _ _ ?_ it hit
        intro it' hit'
        rcases List.mem_append.mp hit' with h | h
        · exact hinv it' h
        · rcases List.mem_singleton.mp h with rfl
          exact buildQuestion_valid sh hlen _ _ _ _

lemma fbLoop1_length_le (sh : ShuffleOracle) (entities : List String)
    (maxQ : Nat) :
    ∀ (sents : List String) (items : List QuizItem) (k : Nat),
      items.length ≤ maxQ →
      (fbLoop1 sh entities maxQ sents items k).1.length ≤ maxQ := by
  intro sents
  induction sents with
  | nil => intro items k h; exact h
  | cons sentence rest ih =>
    intro items k h
    unfold fbLoop1
    by_cases hm : maxQ ≤ items.length
    · rw [if_pos hm]
      exact h
    · rw [if_neg hm]
      rcases hc : extractEntities sentence with - | ⟨answer, cs⟩
      · exact ih items k h
      · refine ih _ _ ?_
        rw [List.length_append]
        simp only [List.length_cons, List.length_nil]
        omega

lemma fbLoop2_inv (sh : ShuffleOracle)
    (hlen : ∀ k l, (sh k l).length = l.length)
    (entities : List String) (sentence : String) :
    ∀ (ents : List String) (items : List QuizItem) (k : Nat),
      (∀ it ∈ items, validItem it) →
      ∀ it ∈ (fbLoop2 sh entities sentence ents items k).1, validItem it := by
  intro ents
  induction ents with
  | nil => intro items k hinv it hit; exact hinv it hit
  | cons ent rest ih =>
    intro items k hinv it hit
    unfold fbLoop2 at hit
    refine ih _ _ ?_ it hit
    intro it' hit'
    rcases List.mem_append.mp hit' with h | h
    · exact hinv it' h
    · rcases List.mem_singleton.mp h with rfl
      exact buildQuestion_valid sh hlen _ _ _ _

lemma fbLoop2_length (sh : ShuffleOracle) (entities : List String)
    (sentence : String) :
    ∀ (ents : List String) (items : List QuizItem) (k : Nat),
      (fbLoop2 sh entities sentence ents items k).1.length =
        items.length + ents.length := by
  intro ents
  induction ents with
  | nil => intro items k; simp [fbLoop2]
  | cons ent rest ih =>
    intro items k
    unfold fbLoop2
    rw [ih]
    rw [List.length_append]
    simp only [List.length_cons, List.length_nil]
    omega

lemma fbPad_inv (sh : ShuffleOracle)
    (hlen : ∀ k l, (sh k l).length = l.length) (title : String) :
    ∀ (n : Nat) (items : List QuizItem) (k : Nat),
      (∀ it ∈ items, validItem it) →
      ∀ it ∈ (fbPad sh title n items k).1, validItem it := by
  intro n
  induction n with
  | zero => intro items k hinv it hit; exact hinv it hit
  | succ m ih =>
    intro items k hinv it hit
    unfold fbPad at hit
    refine ih _ _ ?_ it hit
    intro it' hit'
    rcases List.mem_append.mp hit' with h | h
    · exact hinv it' h
    · rcases List.mem_singleton.mp h with rfl
      exact genericQuestion_valid sh hlen _ _

lemma fbPad_length (sh : ShuffleOracle) (title : String) :
    ∀ (n : Nat) (items : List QuizItem) (k : Nat),
      (fbPad sh title n items k).1.length = items.length + n := by
  intro n
  induction n with
  | zero => intro items k; simp [fbPad]
  | succ m ih =>
    intro items k
    unfold fbPad
    rw [ih]
    rw [List.length_append]
    simp only [List.length_cons, List.length_nil]
    omega

set_option maxRecDepth 8000 in
/-- Counterexample to C8 as stated: for a single-entity article of more
than 200 characters with `1 ≤ min_questions ≤ max_questions`, the one
generated question pads its options with three copies of
`"None of the above"` — the four options are not pairwise distinct.  The
multiset of options is independent of the shuffle (`rng.shuffle` only
permutes), so the duplication occurs under the real seeded RNG as well;
the run is evaluated here under the identity oracle. -/
theorem fallback_duplicate_options :
    200 ≤ einsteinText.length ∧
    (generateRuleBasedQuiz idShuffle "Physics" [] einsteinText 1 10).quiz.map
        QuizItem.options =
      [["Einstein", "None of the above", "None of the above",
        "None of the above"]] :=
  ⟨by decide, by rfl⟩

lemma fbFinish_shape (sh : ShuffleOracle)
    (hlen : ∀ k l, (sh k l).length = l.length) (cleanTitle : String)
    (minQ maxQ : Nat) (hmin : 1 ≤ minQ) (hle : minQ ≤ maxQ)
    (l2 : List QuizItem × Nat)
    (_hl2le : l2.1.length ≤ maxQ)
    (hl2inv : ∀ it ∈ l2.1, validItem it) :
    minQ ≤ (fbFinish sh cleanTitle minQ maxQ l2).length ∧
    (fbFinish sh cleanTitle minQ maxQ l2).length ≤ maxQ ∧
    ∀ it ∈ fbFinish sh cleanTitle minQ maxQ l2, validItem it := by
  unfold fbFinish
  set l3 := fbPad sh cleanTitle (minQ - l2.1.length) l2.1 l2.2 with hl3
  have h3len : l3.1.length = l2.1.length + (minQ - l2.1.length) := by
    rw [hl3]
    exact fbPad_length sh cleanTitle _ _ _
  have h3inv : ∀ it ∈ l3.1, validItem it := by
    rw [hl3]
    exact fbPad_inv sh hlen cleanTitle _ _ _ hl2inv
  have htlen : (l3.1.take maxQ).length = min maxQ l3.1.length :=
    List.length_take _ _
  have hne : ¬((l3.1.take maxQ).isEmpty = true) := by
    intro hh
    have h0 := List.isEmpty_iff.mp hh
    have : (l3.1.take maxQ).length = 0 := by rw [h0]; rfl
    rw [htlen] at this
    omega
  rw [if_neg hne]
  refine ⟨?_, ?_, ?_⟩
  · rw [htlen]
    omega
  · rw [htlen]
    omega
  · intro it hit
    exact h3inv it (List.mem_of_mem_take hit)

lemma fbMainItems_shape (sh : ShuffleOracle)
    (hlen : ∀ k l, (sh k l).length = l.length) (ct : String)
    (S E : List String) (minQ maxQ : Nat)
    (hmin : 1 ≤ minQ) (hle : minQ ≤ maxQ) :
    minQ ≤ (fbMainItems sh ct S E minQ maxQ).length ∧
    (fbMainItems sh ct S E minQ maxQ).length ≤ maxQ ∧
    ∀ it ∈ fbMainItems sh ct S E minQ maxQ, validItem it := by
  simp only [fbMainItems]
  set l1 := fbLoop1 sh E maxQ S [] 0 with hl1def
  have hl1le : l1.1.length ≤ maxQ := by
    rw [hl1def]
    exact fbLoop1_length_le sh E maxQ S [] 0 (by simp)
  have hl1inv : ∀ it ∈ l1.1, validItem it := by
    rw [hl1def]
    exact fbLoop1_inv sh hlen E maxQ S [] 0 (by intro it h; cases h)
  by_cases hcond : l1.1.length < minQ ∧
      ¬(E.filter fun e => ¬(E.take 5).contains e).isEmpty
  · rw [if_pos hcond]
    apply fbFinish_shape sh hlen ct minQ maxQ hmin hle
    · rw [fbLoop2_length, List.length_take]
      omega
    · apply fbLoop2_inv sh hlen
      exact hl1inv
  · rw [if_neg hcond]
    exact fbFinish_shape sh hlen ct minQ maxQ hmin hle l1 hl1le hl1inv

/-- C8 (amended): for every shuffle oracle whose calls preserve length
(in particular the seeded `random.Random(42)`), every title, section
list and article body, and every `1 ≤ min_questions ≤ max_questions`,
the fallback generator returns between `min_questions` and
`max_questions` quiz items inclusive (hence always at least one), each
with exactly 4 options and a difficulty in {easy, medium, hard}.  The
options need not be pairwise distinct — see the counterexample. -/
theorem fallback_quiz_shape (sh : ShuffleOracle)
    (hlen : ∀ k l, (sh k l).length = l.length)
    (title : String) (sections : List String) (articleText : String)
    (minQ maxQ : Nat) (hmin : 1 ≤ minQ) (hle : minQ ≤ maxQ) :
    minQ ≤ (generateRuleBasedQuiz sh title sections articleText
      minQ maxQ).quiz.length ∧
    (generateRuleBasedQuiz sh title sections articleText
      minQ maxQ).quiz.length ≤ maxQ ∧
    ∀ it ∈ (generateRuleBasedQuiz sh title sections articleText minQ maxQ).quiz,
      validItem it := by
  suffices h : ∃ (ct : String) (S E : List String),
      (generateRuleBasedQuiz sh title sections articleText minQ maxQ).quiz =
        fbMainItems sh ct S E minQ maxQ by
    obtain ⟨ct, S, E, heq⟩ := h
    rw [heq]
    exact fbMainItems_shape sh hlen ct S E minQ maxQ hmin hle
  exact ⟨_, _, _, rfl⟩

set_option maxRecDepth 8000 in
/-- Witness for C8 (amended): the identity oracle run on the
single-entity article with `min_questions = 2`, `max_questions = 3`. -/
theorem fallback_quiz_shape_witness :
    2 ≤ (generateRuleBasedQuiz idShuffle "Physics" [] einsteinText
      2 3).quiz.length ∧
    (generateRuleBasedQuiz idShuffle "Physics" [] einsteinText
      2 3).quiz.length ≤ 3 ∧
    ∀ it ∈ (generateRuleBasedQuiz idShuffle "Physics" [] einsteinText 2 3).quiz,
      validItem it :=
  fallback_quiz_shape idShuffle (fun _ _ => rfl) "Physics" [] einsteinText
    2 3 (by decide) (by decide)

end QuizApp
